import Mathlib

set_option maxHeartbeats 4000000
set_option maxRecDepth 20000

namespace ClabInventory

/-!
Shallow embedding of `inventory.py` (clab-ansible-inventory): deterministic
address allocation from fixed pools, node registration, link address
assignment.  Machine addresses are `Nat` values; the textual renderings used
by the program (Python `str` on ints and on `ipaddress` objects) are
re-implemented below so that the inventory strings can be computed exactly.
-/

/-- Little-endian base `b` digits of `n`; `fuel` bounds the recursion and any
`fuel ≥ n` is enough when `2 ≤ b`. -/
def digitsLE (b : Nat) : Nat → Nat → List Nat
  | 0, _ => []
  | fuel + 1, n => if n = 0 then [] else n % b :: digitsLE b fuel (n / b)

/-- Value of a little-endian digit list in base `b`. -/
def fromDigits (b : Nat) : List Nat → Nat
  | [] => 0
  | d :: ds => d + b * fromDigits b ds

/-- Decimal rendering of a natural number, as Python `str` on a nonnegative
int. -/
def natRepr (n : Nat) : String :=
  if n = 0 then "0" else String.mk (((digitsLE 10 n n).reverse).map Nat.digitChar)

/-- Lowercase hexadecimal rendering of a natural number, as the Python format
specifier `%x`. -/
def hexRepr (n : Nat) : String :=
  if n = 0 then "0" else String.mk (((digitsLE 16 n n).reverse).map Nat.digitChar)

/-- Inverse of `Nat.digitChar` on digits below 16 (and 16 elsewhere). -/
def digitVal (c : Char) : Nat :=
  if c = '0' then 0 else if c = '1' then 1 else if c = '2' then 2
  else if c = '3' then 3 else if c = '4' then 4 else if c = '5' then 5
  else if c = '6' then 6 else if c = '7' then 7 else if c = '8' then 8
  else if c = '9' then 9 else if c = 'a' then 10 else if c = 'b' then 11
  else if c = 'c' then 12 else if c = 'd' then 13 else if c = 'e' then 14
  else if c = 'f' then 15 else 16

/-- Numeric value of a digit string in base `b`. -/
def strVal (b : Nat) (s : String) : Nat :=
  fromDigits b ((s.data.map digitVal).reverse)

theorem digitsLE_sound (b : Nat) (hb : 2 ≤ b) :
    ∀ fuel n, n ≤ fuel → fromDigits b (digitsLE b fuel n) = n := by
  intro fuel
  induction fuel with
  | zero =>
    intro n hn
    have hn0 : n = 0 := Nat.le_zero.mp hn
    simp [digitsLE, fromDigits, hn0]
  | succ fuel ih =>
    intro n hn
    by_cases h0 : n = 0
    · simp [digitsLE, fromDigits, h0]
    · have hdiv : n / b < n := Nat.div_lt_self (Nat.pos_of_ne_zero h0) (by omega)
      have hle : n / b ≤ fuel := by omega
      simp only [digitsLE, h0, if_neg, ite_false, fromDigits]
      rw [ih (n / b) hle]
      exact Nat.mod_add_div n b

theorem digitsLE_lt (b : Nat) (hb : 2 ≤ b) :
    ∀ fuel n, ∀ d ∈ digitsLE b fuel n, d < b := by
  intro fuel
  induction fuel with
  | zero => intro n d hd; simp [digitsLE] at hd
  | succ fuel ih =>
    intro n d hd
    by_cases h0 : n = 0
    · simp [digitsLE, h0] at hd
    · simp only [digitsLE, h0, ite_false] at hd
      rcases List.mem_cons.mp hd with hd1 | hd1
      · subst hd1; exact Nat.mod_lt _ (by omega)
      · exact ih _ _ hd1

theorem digitVal_digitChar : ∀ d, d < 16 → digitVal (Nat.digitChar d) = d := by decide

theorem map_digitVal_digitChar :
    ∀ l : List Nat, (∀ d ∈ l, d < 16) → l.map (fun d => digitVal (Nat.digitChar d)) = l := by
  intro l
  induction l with
  | nil => intro _; rfl
  | cons d ds ih =>
    intro h
    simp only [List.map_cons]
    rw [digitVal_digitChar d (h d (List.mem_cons_self d ds)),
      ih (fun e he => h e (List.mem_cons_of_mem d he))]

theorem repr_leftInv (b : Nat) (hb : 2 ≤ b) (hb16 : b ≤ 16) (n : Nat) :
    strVal b (String.mk (((digitsLE b n n).reverse).map Nat.digitChar)) = n := by
  have hlt := digitsLE_lt b hb n n
  simp only [strVal]
  rw [List.map_map]
  rw [show digitVal ∘ Nat.digitChar = fun d => digitVal (Nat.digitChar d) from rfl]
  rw [map_digitVal_digitChar _ (fun d hd => by
    have := hlt d (List.mem_reverse.mp hd); omega)]
  rw [List.reverse_reverse]
  exact digitsLE_sound b hb n n (Nat.le_refl n)

theorem natRepr_leftInv (n : Nat) : strVal 10 (natRepr n) = n := by
  by_cases h0 : n = 0
  · subst h0; decide
  · simp only [natRepr, h0, ite_false]
    exact repr_leftInv 10 (by norm_num) (by norm_num) n

theorem hexRepr_leftInv (n : Nat) : strVal 16 (hexRepr n) = n := by
  by_cases h0 : n = 0
  · subst h0; decide
  · simp only [hexRepr, h0, ite_false]
    exact repr_leftInv 16 (by norm_num) (by norm_num) n

theorem natRepr_inj {m n : Nat} (h : natRepr m = natRepr n) : m = n := by
  have := congrArg (strVal 10) h
  rwa [natRepr_leftInv, natRepr_leftInv] at this

theorem hexRepr_inj {m n : Nat} (h : hexRepr m = hexRepr n) : m = n := by
  have := congrArg (strVal 16) h
  rwa [hexRepr_leftInv, hexRepr_leftInv] at this

/-- Dotted-quad rendering of an IPv4 address value, as CPython
`str(IPv4Address(n))`. -/
def ipv4Str (n : Nat) : String :=
  natRepr (n / 2 ^ 24 % 2 ^ 8) ++ "." ++ natRepr (n / 2 ^ 16 % 2 ^ 8) ++ "." ++
    natRepr (n / 2 ^ 8 % 2 ^ 8) ++ "." ++ natRepr (n % 2 ^ 8)

/-- The eight 16-bit groups of an IPv6 address value, most significant
first. -/
def hextets (n : Nat) : List Nat :=
  (List.range 8).map fun i => n / 2 ^ (16 * (7 - i)) % 2 ^ 16

/-- Scanner state of CPython `_compress_hextets`: best run start and length,
current run start and length, with -1 as the no-run sentinel. -/
structure ZScan where
  bestStart : Int
  bestLen : Int
  curStart : Int
  curLen : Int

/-- One step of the zero-run scan of CPython `_compress_hextets`, fed the
index and the rendered hextet. -/
def zstep (st : ZScan) (p : Nat × String) : ZScan :=
  if p.2 = "0" then
    let dl := st.curLen + 1
    let ds := if st.curStart = -1 then (p.1 : Int) else st.curStart
    if dl > st.bestLen then ⟨ds, dl, ds, dl⟩ else ⟨st.bestStart, st.bestLen, ds, dl⟩
  else ⟨st.bestStart, st.bestLen, -1, 0⟩

/-- CPython `IPv6Address._compress_hextets`: replace the longest run (of
length at least two) of zero groups by an empty group, padding with empty
groups at either end so that joining with ":" produces the double colon. -/
def compressHextets (hx : List String) : List String :=
  let sc := hx.enum.foldl zstep ⟨-1, 0, -1, 0⟩
  if sc.bestLen > 1 then
    let s := sc.bestStart.toNat
    let e := s + sc.bestLen.toNat
    let hx1 := if e = hx.length then hx ++ [""] else hx
    let hx2 := hx1.take s ++ [""] ++ hx1.drop e
    if s = 0 then "" :: hx2 else hx2
  else hx

/-- Compressed rendering of an IPv6 address value, as CPython
`str(IPv6Address(n))`. -/
def ipv6Str (n : Nat) : String :=
  String.intercalate ":" (compressHextets ((hextets n).map hexRepr))

/-- Python `str.rjust(w, c)`. -/
def rjust (s : String) (w : Nat) (c : Char) : String :=
  if w ≤ s.length then s else String.mk (List.replicate (w - s.length) c) ++ s

/-- Split a character list at every occurrence of `c`.  The result always has
one more group than there are separators, as Python `str.split` with an
explicit separator. -/
def splitChar (c : Char) : List Char → List (List Char)
  | [] => [[]]
  | ch :: rest =>
    match splitChar c rest with
    | [] => [[]]
    | g :: gs => if ch = c then [] :: g :: gs else (ch :: g) :: gs

/-- Python `s.split(c)` for a one-character separator `c` (the only kind the
program uses: `-`, `:`, `.` and `/`). -/
def strSplit (s : String) (c : Char) : List String :=
  (splitChar c s.data).map String.mk

/-- The clns_net derivation of `add_lab_nodes` (inventory.py lines 81-86):
zero-pad each octet of the dotted loopback to three characters, join, and
slice the 12-character result as 4 / 4 / rest. -/
def clnsNet (loopback_ipv4 : String) : String :=
  let padded := String.join ((strSplit loopback_ipv4 '.').map fun o => rjust o 3 '0')
  "49.0001." ++ String.mk (padded.data.take 4) ++ "." ++
    String.mk ((padded.data.drop 4).take 4) ++ "." ++
    String.mk (padded.data.drop 8) ++ ".00"

/-- The legacy-identifier formula exactly as the specification words it, with
the final slice written digits[8:12] instead of digits[8:]. -/
def clnsNetSpec (loopback_ipv4 : String) : String :=
  let padded := String.join ((strSplit loopback_ipv4 '.').map fun o => rjust o 3 '0')
  "49.0001." ++ String.mk (padded.data.take 4) ++ "." ++
    String.mk ((padded.data.drop 4).take 4) ++ "." ++
    String.mk ((padded.data.drop 8).take 4) ++ ".00"

example : natRepr 192 = "192" := by decide
example : hexRepr 0x20a = "20a" := by decide
example : ipv4Str (192 * 2 ^ 24 + 2 * 2 ^ 8 + 1) = "192.0.2.1" := by decide
example : ipv6Str (0x20010db8 * 2 ^ 96 + 1) = "2001:db8::1" := by decide
example : ipv6Str (0x20010db8 * 2 ^ 96) = "2001:db8::" := by decide
example : ipv6Str (0x20010db8 * 2 ^ 96 + 0x8000 * 2 ^ 80) = "2001:db8:8000::" := by decide
example : ipv6Str (0x20010db8 * 2 ^ 96 + 0x8000 * 2 ^ 80 + 255) = "2001:db8:8000::ff" := by
  decide
example : strSplit "leaf-1" '-' = ["leaf", "1"] := by decide
example : strSplit "spine" '-' = ["spine"] := by decide
example : strSplit "a:eth1" ':' = ["a", "eth1"] := by decide
example : ipv6Str 0 = "::" := by decide
example : ipv6Str 1 = "::1" := by decide
example : clnsNet "192.0.2.1" = "49.0001.1920.0000.2001.00" := by decide
example : clnsNetSpec "192.0.2.1" = "49.0001.1920.0000.2001.00" := by decide

/-! ## Data model

The inventory structure mirrors the nested `INVENTORY` dict: the `all` group
child list, one entry per node type (hosts plus shared vars), and the
`_meta.hostvars` map.  Python dicts preserve insertion order, so maps are
association lists updated in place. -/

/-- Per-interface record built by `add_lab_links`. -/
structure IntfConf where
  ipv4 : String
  ipv6 : String
  neighbor : String
  ipv4_neighbor : String
  ipv6_neighbor : String
  deriving DecidableEq

/-- Per-node record built by `add_lab_nodes` (`_meta.hostvars[node]`). -/
structure HostVars where
  ansible_host : String
  loopback_ipv6 : String
  loopback_ipv4 : String
  clns_net : String
  interfaces : List (String × IntfConf)
  deriving DecidableEq

/-- One node-type group: `INVENTORY[node_type]`. -/
structure TypeGroup where
  hosts : List String
  vars : List (String × String)
  deriving DecidableEq

/-- The single flat `INVENTORY` dict (lines 166-173), represented by the
three kinds of values its entries can hold.  `children` is the list inside
the reserved `all` entry, or `none` once line 73 has rebound
`INVENTORY["all"]` to a type group (which happens for a node whose inferred
type is the literal string `all`); such a replacing group then lives in
`groups` under the key `all`, exactly as in the flat dict.  `groups` holds
every group-valued entry, keyed by node type.  `hostvars` is the map inside
the reserved `_meta` entry; line 73 can also rebind `_meta` to a type
group, but the very same loop iteration then dies at line 88
(`INVENTORY["_meta"]["hostvars"]` on a dict without that key), so unlike
the `all` entry a clobbered `_meta` entry never survives into the next
iteration and needs no persistent representation. -/
structure Inventory where
  children : Option (List String)
  groups : List (String × TypeGroup)
  hostvars : List (String × HostVars)
  deriving DecidableEq

/-- Failure values of the pipeline.  Each constructor names the Python
exception raised at the corresponding site of inventory.py: `poolExhausted`
is StopIteration from an exhausted pool generator; `keyError` is the
KeyError raised at line 71, 75 or 88 of node registration after a type
group named `all` or `_meta` has overwritten a reserved entry of the flat
dict (line 73); `unknownEndpointNode` is the KeyError raised when a link
endpoint names a node absent from hostvars (line 144); `indexError` and
`valueError` are the generic list-index and unpacking failures. -/
inductive Err where
  | poolExhausted
  | keyError
  | unknownEndpointNode
  | indexError
  | valueError
  deriving DecidableEq

/-- Cursors of the four global subnet generators (inventory.py lines
156-164). -/
structure Pools where
  v6loop : Nat
  v4loop : Nat
  v6link : Nat
  v4link : Nat
  deriving DecidableEq

/-- Lookup in an insertion-ordered string map, as Python `d[k]` /
`k in d`. -/
def lookupA {α : Type} : List (String × α) → String → Option α
  | [], _ => none
  | (k, v) :: rest, key => if k = key then some v else lookupA rest key

/-- Update in an insertion-ordered string map, as Python `d[k] = v`: replace
in place if the key exists, append otherwise. -/
def updateA {α : Type} : List (String × α) → String → α → List (String × α)
  | [], key, v => [(key, v)]
  | (k, w) :: rest, key, v =>
    if k = key then (key, v) :: rest else (k, w) :: updateA rest key v

/-- A node declaration from the topology: the dict key and its `kind`. -/
structure NodeDecl where
  name : String
  kind : String
  deriving DecidableEq

/-- A link declaration: the list of `node:interface` endpoint strings. -/
structure Link where
  endpoints : List String
  deriving DecidableEq

/-- The parsed topology consumed by the pipeline: lab name, nodes in
declaration order, links in declaration order. -/
structure Lab where
  name : String
  nodes : List NodeDecl
  links : List Link
  deriving DecidableEq

/-- The Arista EOS variable table attached to `ceos`-kind groups
(inventory.py lines 48-55). -/
def eosVars : List (String × String) :=
  [("ansible_connection", "ansible.netcommon.network_cli"),
   ("ansible_network_os", "arista.eos.eos"),
   ("ansible_user", "admin"),
   ("ansible_password", "admin"),
   ("ansible_become", "yes"),
   ("ansible_become_method", "enable")]

/-! ## Address pools

`ip_network(b).subnets(new_prefix=p)` yields the equal-sized children of `b`
in address order; the global generators are modelled as the indexing
functions below plus a cursor per pool. -/

/-- 192.0.2.0, network address of the IPv4 loopback parent /24. -/
def LOOP4BASE : Nat := 192 * 2 ^ 24 + 0 * 2 ^ 16 + 2 * 2 ^ 8 + 0

/-- 198.51.100.0, first IPv4 link parent /24. -/
def LINK4BASE1 : Nat := 198 * 2 ^ 24 + 51 * 2 ^ 16 + 100 * 2 ^ 8 + 0

/-- 203.0.113.0, second IPv4 link parent /24. -/
def LINK4BASE2 : Nat := 203 * 2 ^ 24 + 0 * 2 ^ 16 + 113 * 2 ^ 8 + 0

/-- 2001:db8::, the /33 carved into link /127s. -/
def LINK6BASE : Nat := 0x20010db8 * 2 ^ 96

/-- 2001:db8:8000::, the /33 carved into loopback /128s. -/
def LOOP6BASE : Nat := 0x20010db8 * 2 ^ 96 + 0x8000 * 2 ^ 80

/-- The i-th /32 of `ip_network("192.0.2.0/24").subnets(new_prefix=32)`. -/
def ipv4LoopNet (i : Nat) : Option Nat :=
  if i < 2 ^ 8 then some (LOOP4BASE + i) else none

/-- The i-th /31 of the chained `198.51.100.0/24` and `203.0.113.0/24`
subnet generators. -/
def ipv4LinkNet (i : Nat) : Option Nat :=
  if i < 2 ^ 7 then some (LINK4BASE1 + 2 * i)
  else if i < 2 ^ 8 then some (LINK4BASE2 + 2 * (i - 2 ^ 7))
  else none

/-- The i-th /128 of `ip_network("2001:db8:8000::/33").subnets(new_prefix=128)`. -/
def ipv6LoopNet (i : Nat) : Option Nat :=
  if i < 2 ^ 95 then some (LOOP6BASE + i) else none

/-- The i-th /127 of `ip_network("2001:db8::/33").subnets(new_prefix=127)`. -/
def ipv6LinkNet (i : Nat) : Option Nat :=
  if i < 2 ^ 94 then some (LINK6BASE + 2 * i) else none

/-- `next()` on a pool generator: the next subnet, or StopIteration
(`poolExhausted`) once the pool is exhausted. -/
def nextPool (f : Nat → Option Nat) (i : Nat) : Except Err Nat :=
  match f i with
  | some a => Except.ok a
  | none => Except.error Err.poolExhausted

/-- `.hosts()` of an IPv4 network: both addresses for a /31, the single
address for a /32, everything but network and broadcast otherwise. -/
def hostsV4 (net plen : Nat) : List Nat :=
  if plen = 31 then [net, net + 1]
  else if plen = 32 then [net]
  else (((List.range (2 ^ (32 - plen))).map (net + ·)).drop 1).dropLast

/-- `.hosts()` of an IPv6 network: both addresses for a /127, the single
address for a /128, everything but the subnet-router anycast address
otherwise. -/
def hostsV6 (net plen : Nat) : List Nat :=
  if plen = 127 then [net, net + 1]
  else if plen = 128 then [net]
  else ((List.range (2 ^ (128 - plen))).map (net + ·)).drop 1

/-- Network address of `addr/plen` under `strict=False`: the host bits are
masked off, as the `IPv4Network`/`IPv6Network` constructors do. -/
def maskNet (width plen a : Nat) : Nat :=
  a / 2 ^ (width - plen) * 2 ^ (width - plen)

/-! ## Node registration (`add_lab_nodes`, lines 38-97) -/

/-- Node type inferred from the name: `node.split('-')[0]`. -/
def typeOf (name : String) : String :=
  (strSplit name '-').headD ""

/-- Kind-derived group variables: the EOS table for kind `ceos`, empty
otherwise (lines 64-68). -/
def kindVars (kind : String) : List (String × String) :=
  if kind = "ceos" then eosVars else []

/-- `INVENTORY[node_type]["hosts"].append(node)` in the case where the
entry holds a group (the case where it does not raises inside `addNode`);
used to state the successful-step result. -/
def appendHost (groups : List (String × TypeGroup)) (t n : String) :
    List (String × TypeGroup) :=
  match lookupA groups t with
  | some g => updateA groups t { g with hosts := g.hosts ++ [n] }
  | none => groups

/-- The host-variable record stored for a node allocated the `i6`-th loopback
/128 and the `i4`-th loopback /32.  The generators are stringified and the
prefix length dropped (lines 77-79), so only the host address remains. -/
def nodeHV (labName : String) (nd : NodeDecl) (i6 i4 : Nat) : HostVars :=
  let loopback_ipv6 := ipv6Str (LOOP6BASE + i6)
  let loopback_ipv4 := ipv4Str (LOOP4BASE + i4)
  { ansible_host := "clab-" ++ labName ++ "-" ++ nd.name
    loopback_ipv6 := loopback_ipv6
    loopback_ipv4 := loopback_ipv4
    clns_net := clnsNet loopback_ipv4
    interfaces := [] }

/-- One iteration of the `add_lab_nodes` loop (lines 60-97), over the flat
dict.  The reserved entries share the namespace of the type groups: line 71
reads `INVENTORY["all"]["children"]` and raises KeyError once a type group
has replaced the `all` entry; line 73 is a plain dict assignment that can
itself perform such a replacement when the node type is `all` or `_meta`;
line 75 subscripts `INVENTORY[node_type]["hosts"]` and raises KeyError
unless that entry currently holds a group; line 88 reads
`INVENTORY["_meta"]["hostvars"]` and raises KeyError exactly when this
iteration rebound the `_meta` entry to a group, i.e. for a node of type
`_meta` (a rebinding can come from no earlier iteration, which would have
died at this same line). -/
def addNode (labName : String) (st : Inventory × Pools) (nd : NodeDecl) :
    Except Err (Inventory × Pools) := do
  let inv := st.1
  let p := st.2
  let node_type := typeOf nd.name
  let node_vars := kindVars nd.kind
  -- line 71: INVENTORY["all"]["children"]
  let children ←
    match inv.children with
    | some cs => Except.ok cs
    | none => Except.error Err.keyError
  -- lines 71-73: on first occurrence line 72 appends the type to the
  -- children list and line 73 rebinds INVENTORY[node_type] to a fresh
  -- group; for node_type = "all" that assignment replaces the reserved
  -- entry, so the just-extended children list is gone
  let inv1 :=
    if node_type ∈ children then inv
    else { inv with
      children := if node_type = "all" then none else some (children ++ [node_type]),
      groups := updateA inv.groups node_type ⟨[], node_vars⟩ }
  -- line 75: INVENTORY[node_type]["hosts"].append(node)
  let inv2 ←
    match lookupA inv1.groups node_type with
    | some g =>
      Except.ok { inv1 with
        groups := updateA inv1.groups node_type { g with hosts := g.hosts ++ [nd.name] } }
    | none => Except.error Err.keyError
  let i6 ← nextPool ipv6LoopNet p.v6loop
  let i4 ← nextPool ipv4LoopNet p.v4loop
  let hv : HostVars :=
    { ansible_host := "clab-" ++ labName ++ "-" ++ nd.name
      loopback_ipv6 := ipv6Str i6
      loopback_ipv4 := ipv4Str i4
      clns_net := clnsNet (ipv4Str i4)
      interfaces := [] }
  -- line 88: INVENTORY["_meta"]["hostvars"][node] = {...}
  if node_type = "_meta" then Except.error Err.keyError
  else
    Except.ok ({ inv2 with hostvars := updateA inv2.hostvars nd.name hv },
      { p with v6loop := p.v6loop + 1, v4loop := p.v4loop + 1 })

/-- `add_lab_nodes`: fold the loop body over the node declarations. -/
def addLabNodes (lab : Lab) (st : Inventory × Pools) :
    Except Err (Inventory × Pools) :=
  lab.nodes.foldlM (addNode lab.name) st

/-! ## Link allocation (`add_lab_links`, lines 100-145) -/

/-- Python `list.pop()`: the last element and the remaining list, IndexError
on an empty list. -/
def popLast (l : List Nat) : Except Err (Nat × List Nat) :=
  match l.getLast? with
  | some a => Except.ok (a, l.dropLast)
  | none => Except.error Err.indexError

/-- One iteration of the endpoint loop (lines 118-145).  `eps` is the full
endpoint list of the link (used for the neighbor search), `v4ips`/`v6ips`
the remaining host addresses of the allocated subnets. -/
def processEndpoint (eps : List String) (v4plen v6plen : Nat) (inv : Inventory)
    (v4ips v6ips : List Nat) (e : String) :
    Except Err (Inventory × List Nat × List Nat) := do
  -- node, intf = endpoint.split(':') raises ValueError unless exactly two parts
  let (node, intf) ←
    match strSplit e ':' with
    | [n, i] => Except.ok ((n : String), (i : String))
    | _ => Except.error Err.valueError
  -- _endpoints.pop(_endpoints.index(endpoint)); neighbor = _endpoints[0]
  let nb ←
    match eps.erase e with
    | x :: _ => Except.ok x
    | [] => Except.error Err.indexError
  let neighbor := (strSplit nb ':').headD ""
  let (a4, v4ips2) ← popLast v4ips
  let (a6, v6ips2) ← popLast v6ips
  -- own host-address text; conf.ipv4.split('/')[0] recovers exactly this
  -- string since the rendered address contains no '/'
  let own4 := ipv4Str a4
  let own6 := ipv6Str a6
  -- IPv4Network(f"{addr}/{plen}", strict=False).hosts() with the own address
  -- text filtered out, first survivor (lines 133-142); parsing the rendered
  -- address text back yields the address value itself
  let n4 ←
    match ((hostsV4 (maskNet 32 v4plen a4) v4plen).map ipv4Str).filter
        (fun h => h ≠ own4) with
    | x :: _ => Except.ok x
    | [] => Except.error Err.indexError
  let n6 ←
    match ((hostsV6 (maskNet 128 v6plen a6) v6plen).map ipv6Str).filter
        (fun h => h ≠ own6) with
    | x :: _ => Except.ok x
    | [] => Except.error Err.indexError
  -- the hostvars map access (line 144) raises KeyError for an unknown node
  let hv ←
    match lookupA inv.hostvars node with
    | some hv => Except.ok hv
    | none => Except.error Err.unknownEndpointNode
  let conf : IntfConf :=
    { ipv4 := own4 ++ "/" ++ natRepr v4plen
      ipv6 := own6 ++ "/" ++ natRepr v6plen
      neighbor := neighbor
      ipv4_neighbor := n4
      ipv6_neighbor := n6 }
  let hv2 : HostVars := { hv with interfaces := updateA hv.interfaces intf conf }
  Except.ok ({ inv with hostvars := updateA inv.hostvars node hv2 }, v4ips2, v6ips2)

/-- The endpoint loop of one link. -/
def linkLoop (eps : List String) (v4plen v6plen : Nat) :
    Inventory → List Nat → List Nat → List String →
    Except Err (Inventory × List Nat × List Nat)
  | inv, v4ips, v6ips, [] => Except.ok (inv, v4ips, v6ips)
  | inv, v4ips, v6ips, e :: rest => do
    let (inv2, v4ips2, v6ips2) ← processEndpoint eps v4plen v6plen inv v4ips v6ips e
    linkLoop eps v4plen v6plen inv2 v4ips2 v6ips2 rest

/-- One iteration of the `add_lab_links` loop (lines 104-145): allocate one
/31 and one /127, enumerate their hosts, then process each endpoint. -/
def addLink (st : Inventory × Pools) (l : Link) : Except Err (Inventory × Pools) := do
  let inv := st.1
  let p := st.2
  let a4 ← nextPool ipv4LinkNet p.v4link
  let v4ips := hostsV4 a4 31
  let a6 ← nextPool ipv6LinkNet p.v6link
  let v6ips := hostsV6 a6 127
  let (inv2, _, _) ← linkLoop l.endpoints 31 127 inv v4ips v6ips l.endpoints
  Except.ok (inv2, { p with v6link := p.v6link + 1, v4link := p.v4link + 1 })

/-- `add_lab_links`: fold the loop body over the link declarations. -/
def addLabLinks (lab : Lab) (st : Inventory × Pools) :
    Except Err (Inventory × Pools) :=
  lab.links.foldlM addLink st

/-- The initial `INVENTORY` literal (lines 166-173): the reserved `all`
entry holds an empty children list, the reserved `_meta` entry an empty
hostvars map, and no type group exists yet. -/
def initInventory : Inventory := ⟨some [], [], []⟩

/-- All four generators at their first element. -/
def initPools : Pools := ⟨0, 0, 0, 0⟩

/-- `main` without the YAML framing: nodes, then links, then the resulting
structure. -/
def buildInventory (lab : Lab) : Except Err Inventory := do
  let st1 ← addLabNodes lab (initInventory, initPools)
  let st2 ← addLabLinks lab st1
  Except.ok st2.1

/-- The interface record of `node`/`intf` in an inventory. -/
def getConf (inv : Inventory) (node intf : String) : Option IntfConf :=
  (lookupA inv.hostvars node).bind fun hv => lookupA hv.interfaces intf

/-! ## Closed forms of the rendered pool addresses -/

theorem strData_append (s t : String) : (s ++ t).data = s.data ++ t.data := by
  cases s; cases t; rfl

theorem strExt {s t : String} (h : s.data = t.data) : s = t := by
  cases s; cases t; exact congrArg String.mk h

theorem strAppend_left_cancel {s a b : String} (h : s ++ a = s ++ b) : a = b := by
  have hd := congrArg String.data h
  rw [strData_append, strData_append] at hd
  exact strExt (List.append_cancel_left hd)

theorem hexRepr_ne_empty (k : Nat) : hexRepr k ≠ "" := by
  intro h
  have h2 := congrArg (strVal 16) h
  rw [hexRepr_leftInv] at h2
  have hk0 : k = 0 := h2.trans (by decide)
  subst hk0
  exact absurd h (by decide)

theorem hextets_link6 (k : Nat) (hk : k < 2 ^ 16) :
    hextets (LINK6BASE + k) = [0x2001, 0xdb8, 0, 0, 0, 0, 0, k] := by
  unfold hextets LINK6BASE
  rw [show List.range 8 = [0, 1, 2, 3, 4, 5, 6, 7] from rfl]
  simp only [List.map_cons, List.map_nil, List.cons.injEq, and_true]
  norm_num
  refine ⟨?_, ?_, ?_, ?_, ?_, ?_, ?_, ?_⟩ <;> omega

theorem hextets_loop6 (k : Nat) (hk : k < 2 ^ 16) :
    hextets (LOOP6BASE + k) = [0x2001, 0xdb8, 0x8000, 0, 0, 0, 0, k] := by
  unfold hextets LOOP6BASE
  rw [show List.range 8 = [0, 1, 2, 3, 4, 5, 6, 7] from rfl]
  simp only [List.map_cons, List.map_nil, List.cons.injEq, and_true]
  norm_num
  refine ⟨?_, ?_, ?_, ?_, ?_, ?_, ?_, ?_⟩ <;> omega

theorem ipv4Str_loop4 (k : Nat) (hk : k < 2 ^ 8) :
    ipv4Str (LOOP4BASE + k) = "192.0.2." ++ natRepr k := by
  unfold ipv4Str LOOP4BASE
  have h1 : (192 * 2 ^ 24 + 0 * 2 ^ 16 + 2 * 2 ^ 8 + 0 + k) / 2 ^ 24 % 2 ^ 8 = 192 := by omega
  have h2 : (192 * 2 ^ 24 + 0 * 2 ^ 16 + 2 * 2 ^ 8 + 0 + k) / 2 ^ 16 % 2 ^ 8 = 0 := by omega
  have h3 : (192 * 2 ^ 24 + 0 * 2 ^ 16 + 2 * 2 ^ 8 + 0 + k) / 2 ^ 8 % 2 ^ 8 = 2 := by omega
  have h4 : (192 * 2 ^ 24 + 0 * 2 ^ 16 + 2 * 2 ^ 8 + 0 + k) % 2 ^ 8 = k := by omega
  rw [h1, h2, h3, h4]
  rw [show natRepr 192 = "192" from by decide, show natRepr 0 = "0" from by decide,
    show natRepr 2 = "2" from by decide]
  apply strExt
  simp [strData_append]

theorem ipv4Str_link41 (k : Nat) (hk : k < 2 ^ 8) :
    ipv4Str (LINK4BASE1 + k) = "198.51.100." ++ natRepr k := by
  unfold ipv4Str LINK4BASE1
  have h1 : (198 * 2 ^ 24 + 51 * 2 ^ 16 + 100 * 2 ^ 8 + 0 + k) / 2 ^ 24 % 2 ^ 8 = 198 := by omega
  have h2 : (198 * 2 ^ 24 + 51 * 2 ^ 16 + 100 * 2 ^ 8 + 0 + k) / 2 ^ 16 % 2 ^ 8 = 51 := by omega
  have h3 : (198 * 2 ^ 24 + 51 * 2 ^ 16 + 100 * 2 ^ 8 + 0 + k) / 2 ^ 8 % 2 ^ 8 = 100 := by omega
  have h4 : (198 * 2 ^ 24 + 51 * 2 ^ 16 + 100 * 2 ^ 8 + 0 + k) % 2 ^ 8 = k := by omega
  rw [h1, h2, h3, h4]
  rw [show natRepr 198 = "198" from by decide, show natRepr 51 = "51" from by decide,
    show natRepr 100 = "100" from by decide]
  apply strExt
  simp [strData_append]

theorem ipv4Str_link42 (k : Nat) (hk : k < 2 ^ 8) :
    ipv4Str (LINK4BASE2 + k) = "203.0.113." ++ natRepr k := by
  unfold ipv4Str LINK4BASE2
  have h1 : (203 * 2 ^ 24 + 0 * 2 ^ 16 + 113 * 2 ^ 8 + 0 + k) / 2 ^ 24 % 2 ^ 8 = 203 := by omega
  have h2 : (203 * 2 ^ 24 + 0 * 2 ^ 16 + 113 * 2 ^ 8 + 0 + k) / 2 ^ 16 % 2 ^ 8 = 0 := by omega
  have h3 : (203 * 2 ^ 24 + 0 * 2 ^ 16 + 113 * 2 ^ 8 + 0 + k) / 2 ^ 8 % 2 ^ 8 = 113 := by omega
  have h4 : (203 * 2 ^ 24 + 0 * 2 ^ 16 + 113 * 2 ^ 8 + 0 + k) % 2 ^ 8 = k := by omega
  rw [h1, h2, h3, h4]
  rw [show natRepr 203 = "203" from by decide, show natRepr 0 = "0" from by decide,
    show natRepr 113 = "113" from by decide]
  apply strExt
  simp [strData_append]

theorem compress_pat5 (h : String) (hh : ¬h = "0") :
    compressHextets ["2001", "db8", "0", "0", "0", "0", "0", h] = ["2001", "db8", "", h] := by
  have he : (["2001", "db8", "0", "0", "0", "0", "0", h]).enum
      = [(0, "2001"), (1, "db8"), (2, "0"), (3, "0"), (4, "0"), (5, "0"), (6, "0"), (7, h)] := rfl
  simp [compressHextets, he, zstep, hh]

theorem compress_pat4 (h : String) (hh : ¬h = "0") :
    compressHextets ["2001", "db8", "8000", "0", "0", "0", "0", h]
      = ["2001", "db8", "8000", "", h] := by
  have he : (["2001", "db8", "8000", "0", "0", "0", "0", h]).enum
      = [(0, "2001"), (1, "db8"), (2, "8000"), (3, "0"), (4, "0"), (5, "0"), (6, "0"), (7, h)] :=
    rfl
  simp [compressHextets, he, zstep, hh]

theorem ipv6Str_link6 (k : Nat) (hk : k < 2 ^ 16) :
    ipv6Str (LINK6BASE + k) = "2001:db8::" ++ (if k = 0 then "" else hexRepr k) := by
  by_cases h0 : k = 0
  · subst h0; decide
  · have hne : ¬hexRepr k = "0" := fun h => h0 (hexRepr_inj (h.trans (by decide)))
    unfold ipv6Str
    rw [hextets_link6 k hk]
    rw [show ([0x2001, 0xdb8, 0, 0, 0, 0, 0, k].map hexRepr)
        = ["2001", "db8", "0", "0", "0", "0", "0", hexRepr k] from by
      simp [show hexRepr 0x2001 = "2001" from by decide, show hexRepr 0xdb8 = "db8" from by decide,
        show hexRepr 0 = "0" from by decide]]
    rw [compress_pat5 _ hne]
    simp only [h0, ite_false]
    apply strExt
    simp [String.intercalate, String.intercalate.go, strData_append]

theorem ipv6Str_loop6 (k : Nat) (hk : k < 2 ^ 16) :
    ipv6Str (LOOP6BASE + k) = "2001:db8:8000::" ++ (if k = 0 then "" else hexRepr k) := by
  by_cases h0 : k = 0
  · subst h0; decide
  · have hne : ¬hexRepr k = "0" := fun h => h0 (hexRepr_inj (h.trans (by decide)))
    unfold ipv6Str
    rw [hextets_loop6 k hk]
    rw [show ([0x2001, 0xdb8, 0x8000, 0, 0, 0, 0, k].map hexRepr)
        = ["2001", "db8", "8000", "0", "0", "0", "0", hexRepr k] from by
      simp [show hexRepr 0x2001 = "2001" from by decide, show hexRepr 0xdb8 = "db8" from by decide,
        show hexRepr 0x8000 = "8000" from by decide, show hexRepr 0 = "0" from by decide]]
    rw [compress_pat4 _ hne]
    simp only [h0, ite_false]
    apply strExt
    simp [String.intercalate, String.intercalate.go, strData_append]

/-- Distinct small suffix values give distinct rendered loopback-v4
strings. -/
theorem loop4Str_inj {j k : Nat} (hj : j < 2 ^ 8) (hk : k < 2 ^ 8) (hne : j ≠ k) :
    ipv4Str (LOOP4BASE + j) ≠ ipv4Str (LOOP4BASE + k) := by
  rw [ipv4Str_loop4 j hj, ipv4Str_loop4 k hk]
  intro h
  exact hne (natRepr_inj (strAppend_left_cancel h))

/-- Distinct small suffix values give distinct rendered loopback-v6
strings. -/
theorem loop6Str_inj {j k : Nat} (hj : j < 2 ^ 16) (hk : k < 2 ^ 16) (hne : j ≠ k) :
    ipv6Str (LOOP6BASE + j) ≠ ipv6Str (LOOP6BASE + k) := by
  rw [ipv6Str_loop6 j hj, ipv6Str_loop6 k hk]
  intro h
  have h2 := strAppend_left_cancel h
  by_cases h0 : j = 0
  · subst h0
    by_cases hk0 : k = 0
    · exact hne hk0.symm
    · rw [if_pos rfl, if_neg hk0] at h2
      exact hexRepr_ne_empty k h2.symm
  · by_cases hk0 : k = 0
    · rw [if_neg h0, if_pos hk0] at h2
      exact hexRepr_ne_empty j h2
    · rw [if_neg h0, if_neg hk0] at h2
      exact hne (hexRepr_inj h2)

/-- The two hosts of an allocated link /31 render to different strings, and
the network address is even. -/
theorem link4Str_ne {i a : Nat} (h : ipv4LinkNet i = some a) :
    ipv4Str a ≠ ipv4Str (a + 1) ∧ a % 2 = 0 := by
  unfold ipv4LinkNet at h
  by_cases h1 : i < 2 ^ 7
  · rw [if_pos h1] at h
    injection h with ha
    subst ha
    constructor
    · rw [show LINK4BASE1 + 2 * i + 1 = LINK4BASE1 + (2 * i + 1) from by omega]
      rw [ipv4Str_link41 (2 * i) (by omega), ipv4Str_link41 (2 * i + 1) (by omega)]
      intro hcontra
      have := natRepr_inj (strAppend_left_cancel hcontra)
      omega
    · unfold LINK4BASE1; omega
  · rw [if_neg h1] at h
    by_cases h2 : i < 2 ^ 8
    · rw [if_pos h2] at h
      injection h with ha
      subst ha
      constructor
      · rw [show LINK4BASE2 + 2 * (i - 2 ^ 7) + 1 = LINK4BASE2 + (2 * (i - 2 ^ 7) + 1) from by
          omega]
        rw [ipv4Str_link42 (2 * (i - 2 ^ 7)) (by omega),
          ipv4Str_link42 (2 * (i - 2 ^ 7) + 1) (by omega)]
        intro hcontra
        have := natRepr_inj (strAppend_left_cancel hcontra)
        omega
      · unfold LINK4BASE2; omega
    · rw [if_neg h2] at h
      exact absurd h (by simp)

/-- The two hosts of an allocated link /127 render to different strings when
the cursor is still below the v4 capacity, and the network address is
even. -/
theorem link6Str_ne {i a : Nat} (hi : i < 2 ^ 8) (h : ipv6LinkNet i = some a) :
    ipv6Str a ≠ ipv6Str (a + 1) ∧ a % 2 = 0 := by
  unfold ipv6LinkNet at h
  rw [if_pos (by omega : i < 2 ^ 94)] at h
  injection h with ha
  subst ha
  constructor
  · rw [show LINK6BASE + 2 * i + 1 = LINK6BASE + (2 * i + 1) from by omega]
    rw [ipv6Str_link6 (2 * i) (by omega), ipv6Str_link6 (2 * i + 1) (by omega)]
    intro hcontra
    have h2 := strAppend_left_cancel hcontra
    rw [if_neg (by omega : ¬2 * i + 1 = 0)] at h2
    by_cases h0 : 2 * i = 0
    · rw [if_pos h0] at h2
      exact hexRepr_ne_empty _ h2.symm
    · rw [if_neg h0] at h2
      have := hexRepr_inj h2
      omega
  · unfold LINK6BASE; omega

/-! ## Map and monad infrastructure -/

theorem lookupA_updateA_self {α : Type} (l : List (String × α)) (k : String) (v : α) :
    lookupA (updateA l k v) k = some v := by
  induction l with
  | nil => simp [updateA, lookupA]
  | cons p rest ih =>
    by_cases h : p.1 = k
    · simp [updateA, lookupA, h]
    · simp only [updateA, h, ite_false]
      simp only [lookupA, h, ite_false]
      exact ih

theorem lookupA_updateA_ne {α : Type} (l : List (String × α)) {k k2 : String} (v : α)
    (h : k ≠ k2) : lookupA (updateA l k v) k2 = lookupA l k2 := by
  induction l with
  | nil => simp [updateA, lookupA, h]
  | cons p rest ih =>
    by_cases hp : p.1 = k
    · simp [updateA, lookupA, hp, h]
    · simp only [updateA, hp, ite_false, lookupA]
      by_cases hp2 : p.1 = k2
      · simp [hp2]
      · simp only [hp2, ite_false]
        exact ih

theorem lookupA_append {α : Type} (l1 l2 : List (String × α)) (k : String) :
    lookupA (l1 ++ l2) k
      = match lookupA l1 k with
        | some v => some v
        | none => lookupA l2 k := by
  induction l1 with
  | nil => simp [lookupA]
  | cons p rest ih =>
    by_cases h : p.1 = k
    · simp [lookupA, h]
    · simp only [List.cons_append, lookupA, h, ite_false]
      exact ih

/-- Inversion of a successful `Except` bind. -/
theorem bindOk {α β : Type} {x : Except Err α} {g : α → Except Err β} {o : β}
    (h : (x >>= g) = Except.ok o) : ∃ a, x = Except.ok a ∧ g a = Except.ok o := by
  cases x with
  | ok a =>
    refine ⟨a, rfl, ?_⟩
    simpa [Bind.bind, Except.bind] using h
  | error e => simp [Bind.bind, Except.bind] at h

/-- A successful fold over `l1 ++ l2` splits into successful folds. -/
theorem foldlM_ok_append {σ α : Type} (f : σ → α → Except Err σ) (l1 l2 : List α) (st : σ)
    {out : σ} (h : (l1 ++ l2).foldlM f st = Except.ok out) :
    ∃ mid, l1.foldlM f st = Except.ok mid ∧ l2.foldlM f mid = Except.ok out := by
  induction l1 generalizing st with
  | nil => exact ⟨st, rfl, h⟩
  | cons x xs ih =>
    rw [List.cons_append, List.foldlM_cons] at h
    obtain ⟨st1, hx, hrest⟩ := bindOk h
    obtain ⟨mid, h1, h2⟩ := ih st1 hrest
    refine ⟨mid, ?_, h2⟩
    rw [List.foldlM_cons, hx]
    simpa [Bind.bind, Except.bind] using h1

/-- A successful fold over a cons splits into a step and a fold. -/
theorem foldlM_ok_cons {σ α : Type} (f : σ → α → Except Err σ) (x : α) (xs : List α) (st : σ)
    {out : σ} (h : (x :: xs).foldlM f st = Except.ok out) :
    ∃ st1, f st x = Except.ok st1 ∧ xs.foldlM f st1 = Except.ok out := by
  rw [List.foldlM_cons] at h
  exact bindOk h

/-! ## Characterization of node registration -/

/-- The state after a successful `addNode` step (the KeyError paths of the
reserved entries never reach this point). -/
def addNodeResult (labName : String) (inv : Inventory) (p : Pools) (nd : NodeDecl) :
    Inventory × Pools :=
  let node_type := typeOf nd.name
  let node_vars := kindVars nd.kind
  let children := inv.children.getD []
  let inv1 :=
    if node_type ∈ children then inv
    else { inv with
      children := if node_type = "all" then none else some (children ++ [node_type]),
      groups := updateA inv.groups node_type ⟨[], node_vars⟩ }
  let inv2 := { inv1 with groups := appendHost inv1.groups node_type nd.name }
  ({ inv2 with
      hostvars := updateA inv2.hostvars nd.name (nodeHV labName nd p.v6loop p.v4loop) },
   { p with v6loop := p.v6loop + 1, v4loop := p.v4loop + 1 })

/-- While the reserved `all` entry is intact, its children list and the
group keys stay in sync; this holds of every state reachable from the
initial inventory before a node of type `all` appears. -/
def InvWF (inv : Inventory) : Prop :=
  ∀ t, t ∈ inv.children.getD [] ↔ (lookupA inv.groups t).isSome

theorem InvWF_some {inv : Inventory} {cs : List String} (hch : inv.children = some cs)
    (hWF : InvWF inv) : ∀ t, t ∈ cs ↔ (lookupA inv.groups t).isSome := by
  intro t
  have h := hWF t
  rw [hch] at h
  simpa using h

/-- Line 71 raises KeyError once a type group has replaced the reserved
`all` entry. -/
theorem addNode_children_none (labName : String) (inv : Inventory) (p : Pools)
    (nd : NodeDecl) (hch : inv.children = none) :
    addNode labName (inv, p) nd = Except.error Err.keyError := by
  simp [addNode, hch, Bind.bind, Except.bind]

/-- Line 75 raises KeyError when the type is listed in children but the
entry at that key does not hold a group. -/
theorem addNode_line75_none (labName : String) (inv : Inventory) (p : Pools)
    (nd : NodeDecl) (cs : List String) (hch : inv.children = some cs)
    (hmem : typeOf nd.name ∈ cs)
    (hlkg : lookupA inv.groups (typeOf nd.name) = none) :
    addNode labName (inv, p) nd = Except.error Err.keyError := by
  simp [addNode, hch, hmem, hlkg, Bind.bind, Except.bind]

/-- A node of type `_meta` never completes registration: line 73 rebinds
the reserved `_meta` entry and line 88 then raises (or, if the pools are
exhausted first, line 78 or 79 raises). -/
theorem addNode_meta_not_ok (labName : String) (inv : Inventory) (p : Pools)
    (nd : NodeDecl) (cs : List String) (hch : inv.children = some cs)
    (hm : typeOf nd.name = "_meta") (st2 : Inventory × Pools) :
    addNode labName (inv, p) nd ≠ Except.ok st2 := by
  intro h
  have hallne : typeOf nd.name ≠ "all" := by rw [hm]; decide
  by_cases hmem : typeOf nd.name ∈ cs
  · cases hlkg : lookupA inv.groups (typeOf nd.name) with
    | none =>
      rw [addNode_line75_none labName inv p nd cs hch hmem hlkg] at h
      exact absurd h (by simp)
    | some g =>
      rw [hm] at hmem hlkg
      cases h6x : nextPool ipv6LoopNet p.v6loop with
      | error e =>
        simp [addNode, hch, hmem, hallne, hlkg, h6x, hm, Bind.bind, Except.bind] at h
      | ok i6 =>
        cases h4x : nextPool ipv4LoopNet p.v4loop with
        | error e =>
          simp [addNode, hch, hmem, hallne, hlkg, h6x, h4x, hm, Bind.bind, Except.bind] at h
        | ok i4 =>
          simp [addNode, hch, hmem, hallne, hlkg, h6x, h4x, hm, Bind.bind, Except.bind] at h
  · rw [hm] at hmem
    cases h6x : nextPool ipv6LoopNet p.v6loop with
    | error e =>
      simp [addNode, hch, hmem, hallne, lookupA_updateA_self, h6x, hm,
        Bind.bind, Except.bind] at h
    | ok i6 =>
      cases h4x : nextPool ipv4LoopNet p.v4loop with
      | error e =>
        simp [addNode, hch, hmem, hallne, lookupA_updateA_self, h6x, h4x, hm,
          Bind.bind, Except.bind] at h
      | ok i4 =>
        simp [addNode, hch, hmem, hallne, lookupA_updateA_self, h6x, h4x, hm,
          Bind.bind, Except.bind] at h

theorem addNode_ok (labName : String) (inv : Inventory) (p : Pools) (nd : NodeDecl)
    (cs : List String) (hch : inv.children = some cs)
    (hlk : typeOf nd.name ∈ cs → (lookupA inv.groups (typeOf nd.name)).isSome)
    (hm : typeOf nd.name ≠ "_meta")
    (h4 : p.v4loop < 2 ^ 8) (h6 : p.v6loop < 2 ^ 95) :
    addNode labName (inv, p) nd = Except.ok (addNodeResult labName inv p nd) := by
  have h4n : p.v4loop < 256 := by norm_num at h4; exact h4
  have h6n : p.v6loop < 39614081257132168796771975168 := by norm_num at h6; exact h6
  by_cases hmem : typeOf nd.name ∈ cs
  · obtain ⟨g, hg⟩ := Option.isSome_iff_exists.mp (hlk hmem)
    simp [addNode, addNodeResult, appendHost, nextPool, ipv6LoopNet, ipv4LoopNet,
      nodeHV, hch, hmem, hg, hm, h4n, h6n, Bind.bind, Except.bind]
  · simp [addNode, addNodeResult, appendHost, nextPool, ipv6LoopNet, ipv4LoopNet,
      nodeHV, hch, hmem, lookupA_updateA_self, hm, h4n, h6n, Bind.bind, Except.bind]

/-- With the v6 loopback pool exhausted, registration fails at line 78. -/
theorem addNode_v6_exhausted (labName : String) (inv : Inventory) (p : Pools)
    (nd : NodeDecl) (cs : List String) (hch : inv.children = some cs)
    (hlk : typeOf nd.name ∈ cs → (lookupA inv.groups (typeOf nd.name)).isSome)
    (h6 : ¬p.v6loop < 2 ^ 95) :
    addNode labName (inv, p) nd = Except.error Err.poolExhausted := by
  have h6n : ¬p.v6loop < 39614081257132168796771975168 := by norm_num at h6; omega
  by_cases hmem : typeOf nd.name ∈ cs
  · obtain ⟨g, hg⟩ := Option.isSome_iff_exists.mp (hlk hmem)
    simp [addNode, nextPool, ipv6LoopNet, hch, hmem, hg, h6n, Bind.bind, Except.bind]
  · simp [addNode, nextPool, ipv6LoopNet, hch, hmem, lookupA_updateA_self, h6n,
      Bind.bind, Except.bind]

/-- When the 256 loopback /32s are gone, the next node registration fails
with pool exhaustion: the v6 allocation (line 78) still succeeds and the v4
allocation (line 79) raises. -/
theorem addNode_v4_exhausted (labName : String) (inv : Inventory) (p : Pools)
    (nd : NodeDecl) (cs : List String) (hch : inv.children = some cs)
    (hlk : typeOf nd.name ∈ cs → (lookupA inv.groups (typeOf nd.name)).isSome)
    (h4 : ¬p.v4loop < 2 ^ 8) (h6 : p.v6loop < 2 ^ 95) :
    addNode labName (inv, p) nd = Except.error Err.poolExhausted := by
  have h4n : ¬p.v4loop < 256 := by norm_num at h4; omega
  have h6n : p.v6loop < 39614081257132168796771975168 := by norm_num at h6; exact h6
  by_cases hmem : typeOf nd.name ∈ cs
  · obtain ⟨g, hg⟩ := Option.isSome_iff_exists.mp (hlk hmem)
    simp [addNode, nextPool, ipv6LoopNet, ipv4LoopNet, hch, hmem, hg, h4n, h6n,
      Bind.bind, Except.bind]
  · simp [addNode, nextPool, ipv6LoopNet, ipv4LoopNet, hch, hmem,
      lookupA_updateA_self, h4n, h6n, Bind.bind, Except.bind]

theorem addNode_ok_inv (labName : String) (inv : Inventory) (p : Pools) (nd : NodeDecl)
    (st2 : Inventory × Pools) (h : addNode labName (inv, p) nd = Except.ok st2) :
    p.v4loop < 2 ^ 8 ∧ p.v6loop < 2 ^ 95 ∧ (∃ cs, inv.children = some cs) ∧
      typeOf nd.name ≠ "_meta" ∧ st2 = addNodeResult labName inv p nd := by
  cases hch : inv.children with
  | none =>
    rw [addNode_children_none labName inv p nd hch] at h
    exact absurd h (by simp)
  | some cs =>
    have hlk : typeOf nd.name ∈ cs → (lookupA inv.groups (typeOf nd.name)).isSome := by
      intro hmem
      cases hlkg : lookupA inv.groups (typeOf nd.name) with
      | some g => simp
      | none =>
        rw [addNode_line75_none labName inv p nd cs hch hmem hlkg] at h
        exact absurd h (by simp)
    have hm : typeOf nd.name ≠ "_meta" := by
      intro hmx
      exact addNode_meta_not_ok labName inv p nd cs hch hmx st2 h
    by_cases h6 : p.v6loop < 2 ^ 95
    · by_cases h4 : p.v4loop < 2 ^ 8
      · rw [addNode_ok labName inv p nd cs hch hlk hm h4 h6] at h
        injection h with h2
        exact ⟨h4, h6, ⟨cs, rfl⟩, hm, h2.symm⟩
      · rw [addNode_v4_exhausted labName inv p nd cs hch hlk h4 h6] at h
        exact absurd h (by simp)
    · rw [addNode_v6_exhausted labName inv p nd cs hch hlk h6] at h
      exact absurd h (by simp)

theorem addNodeResult_hostvars (labName : String) (inv : Inventory) (p : Pools)
    (nd : NodeDecl) :
    (addNodeResult labName inv p nd).1.hostvars
      = updateA inv.hostvars nd.name (nodeHV labName nd p.v6loop p.v4loop) := by
  unfold addNodeResult
  by_cases h : typeOf nd.name ∈ inv.children.getD [] <;> simp [h]

theorem addNodeResult_pools (labName : String) (inv : Inventory) (p : Pools)
    (nd : NodeDecl) :
    (addNodeResult labName inv p nd).2
      = { p with v6loop := p.v6loop + 1, v4loop := p.v4loop + 1 } := rfl

theorem addNodeResult_children_some (labName : String) (inv : Inventory) (p : Pools)
    (nd : NodeDecl) (cs : List String) (hch : inv.children = some cs)
    (hall : typeOf nd.name ≠ "all") :
    (addNodeResult labName inv p nd).1.children
      = some (if typeOf nd.name ∈ cs then cs else cs ++ [typeOf nd.name]) := by
  unfold addNodeResult
  rw [hch]
  by_cases hmem : typeOf nd.name ∈ cs <;> simp [hmem, hall, hch]

/-- A first-occurrence node of type `all` destroys the reserved children
list: line 73 rebinds the `all` entry to its type group. -/
theorem addNodeResult_children_all (labName : String) (inv : Inventory) (p : Pools)
    (nd : NodeDecl) (cs : List String) (hch : inv.children = some cs)
    (hall : typeOf nd.name = "all") (hmem : ¬typeOf nd.name ∈ cs) :
    (addNodeResult labName inv p nd).1.children = none := by
  unfold addNodeResult
  rw [hch]
  rw [hall] at hmem
  simp [hmem, hall]

/-- A node whose type already has a group leaves the children list alone
(the creation branch of lines 72-73 is skipped). -/
theorem addNodeResult_children_mem (labName : String) (inv : Inventory) (p : Pools)
    (nd : NodeDecl) (cs : List String) (hch : inv.children = some cs)
    (hmem : typeOf nd.name ∈ cs) :
    (addNodeResult labName inv p nd).1.children = inv.children := by
  unfold addNodeResult
  rw [hch]
  simp [hmem, hch]

theorem updateA_of_none {α : Type} (l : List (String × α)) (k : String) (v : α)
    (h : lookupA l k = none) : updateA l k v = l ++ [(k, v)] := by
  induction l with
  | nil => rfl
  | cons p rest ih =>
    simp only [lookupA] at h
    by_cases hp : p.1 = k
    · rw [if_pos hp] at h; exact absurd h (by simp)
    · rw [if_neg hp] at h
      simp only [updateA, hp, ite_false, List.cons_append]
      rw [ih h]

theorem updateA_append_new {α : Type} (l : List (String × α)) (k : String) (w v : α)
    (h : lookupA l k = none) : updateA (l ++ [(k, w)]) k v = l ++ [(k, v)] := by
  induction l with
  | nil => simp [updateA]
  | cons p rest ih =>
    simp only [lookupA] at h
    by_cases hp : p.1 = k
    · rw [if_pos hp] at h; exact absurd h (by simp)
    · rw [if_neg hp] at h
      simp only [List.cons_append, updateA, hp, ite_false]
      simp [ih h]

theorem lookupA_append_new_self {α : Type} (l : List (String × α)) (k : String) (v : α)
    (h : lookupA l k = none) : lookupA (l ++ [(k, v)]) k = some v := by
  rw [lookupA_append, h]
  simp [lookupA]

theorem lookupA_append_new_ne {α : Type} (l : List (String × α)) (k t : String) (v : α)
    (h : ¬k = t) : lookupA (l ++ [(k, v)]) t = lookupA l t := by
  rw [lookupA_append]
  cases hl : lookupA l t with
  | some w => rfl
  | none => simp [lookupA, h]

theorem addNodeResult_groups_mem (labName : String) (inv : Inventory) (p : Pools)
    (nd : NodeDecl) (g : TypeGroup) (cs : List String)
    (hch : inv.children = some cs)
    (hmem : typeOf nd.name ∈ cs)
    (hg : lookupA inv.groups (typeOf nd.name) = some g) :
    (addNodeResult labName inv p nd).1.groups
      = updateA inv.groups (typeOf nd.name) ⟨g.hosts ++ [nd.name], g.vars⟩ := by
  unfold addNodeResult appendHost
  rw [hch]
  simp [hmem, hg]

theorem addNodeResult_groups_new (labName : String) (inv : Inventory) (p : Pools)
    (nd : NodeDecl) (cs : List String)
    (hch : inv.children = some cs)
    (hmem : ¬typeOf nd.name ∈ cs)
    (hg : lookupA inv.groups (typeOf nd.name) = none) :
    (addNodeResult labName inv p nd).1.groups
      = inv.groups ++ [(typeOf nd.name, ⟨[nd.name], kindVars nd.kind⟩)] := by
  have hupd : updateA inv.groups (typeOf nd.name) ⟨[], kindVars nd.kind⟩
      = inv.groups ++ [(typeOf nd.name, ⟨[], kindVars nd.kind⟩)] :=
    updateA_of_none _ _ _ hg
  have hlk2 : lookupA (inv.groups ++ [(typeOf nd.name, ⟨[], kindVars nd.kind⟩)])
      (typeOf nd.name) = some ⟨[], kindVars nd.kind⟩ :=
    lookupA_append_new_self _ _ _ hg
  have hupd2 : updateA (inv.groups ++ [(typeOf nd.name, ⟨[], kindVars nd.kind⟩)])
      (typeOf nd.name) ⟨[nd.name], kindVars nd.kind⟩
      = inv.groups ++ [(typeOf nd.name, ⟨[nd.name], kindVars nd.kind⟩)] :=
    updateA_append_new _ _ _ _ hg
  unfold addNodeResult appendHost
  rw [hch]
  simp [hmem, hupd, hlk2, hupd2]

theorem addNodeResult_WF (labName : String) (inv : Inventory) (p : Pools) (nd : NodeDecl)
    (cs : List String) (hch : inv.children = some cs)
    (hall : typeOf nd.name ≠ "all") (hWF : InvWF inv) :
    InvWF (addNodeResult labName inv p nd).1 := by
  have hWFs := InvWF_some hch hWF
  intro t
  rw [addNodeResult_children_some labName inv p nd cs hch hall]
  simp only [Option.getD_some]
  by_cases hmem : typeOf nd.name ∈ cs
  · obtain ⟨g, hg⟩ := Option.isSome_iff_exists.mp ((hWFs _).mp hmem)
    have hg2 : lookupA inv.groups (typeOf nd.name) = some g := hg
    rw [addNodeResult_groups_mem labName inv p nd g cs hch hmem hg2, if_pos hmem]
    by_cases ht : typeOf nd.name = t
    · subst ht
      rw [lookupA_updateA_self]
      simp [hmem]
    · rw [lookupA_updateA_ne _ _ ht]
      exact hWFs t
  · have hg : lookupA inv.groups (typeOf nd.name) = none := by
      cases hl : lookupA inv.groups (typeOf nd.name) with
      | none => rfl
      | some g => exact absurd ((hWFs _).mpr (by simp [hl])) hmem
    rw [addNodeResult_groups_new labName inv p nd cs hch hmem hg, if_neg hmem]
    by_cases ht : typeOf nd.name = t
    · subst ht
      rw [lookupA_append_new_self _ _ _ hg]
      simp
    · rw [lookupA_append_new_ne _ _ _ _ ht]
      constructor
      · intro hmem2
        rcases List.mem_append.mp hmem2 with h1 | h1
        · exact (hWFs t).mp h1
        · simp at h1; exact absurd h1.symm ht
      · intro hsome
        exact List.mem_append.mpr (Or.inl ((hWFs t).mpr hsome))

/-- A step whose type group already exists keeps the sync invariant even
when the type is the reserved key `all`: no creation happens. -/
theorem addNodeResult_WF_mem (labName : String) (inv : Inventory) (p : Pools)
    (nd : NodeDecl) (cs : List String) (hch : inv.children = some cs)
    (hmem : typeOf nd.name ∈ cs) (hWF : InvWF inv) :
    InvWF (addNodeResult labName inv p nd).1 := by
  have hWFs := InvWF_some hch hWF
  obtain ⟨g, hg⟩ := Option.isSome_iff_exists.mp ((hWFs _).mp hmem)
  intro t
  rw [addNodeResult_children_mem labName inv p nd cs hch hmem,
    addNodeResult_groups_mem labName inv p nd g cs hch hmem hg]
  by_cases ht : typeOf nd.name = t
  · subst ht
    rw [lookupA_updateA_self, hch]
    simp [hmem]
  · rw [lookupA_updateA_ne _ _ ht]
    exact hWF t

/-! ## The node fold -/

/-- The children list after registering a sequence of types, each appended on
first occurrence. -/
def childrenAfter (cs : List String) (ts : List String) : List String :=
  ts.foldl (fun acc t => if t ∈ acc then acc else acc ++ [t]) cs

/-- Names of the nodes of type `t`, in declaration order. -/
def hostsOfType (ns : List NodeDecl) (t : String) : List String :=
  (ns.filter (fun nd => typeOf nd.name = t)).map NodeDecl.name

/-- The first declared node of type `t`. -/
def firstOfType (ns : List NodeDecl) (t : String) : Option NodeDecl :=
  (ns.filter (fun nd => typeOf nd.name = t)).head?

theorem nodesFold_ok (labName : String) (ns : List NodeDecl) :
    ∀ (inv : Inventory) (p : Pools) (cs : List String),
      inv.children = some cs → InvWF inv →
      (∀ nd, nd ∈ ns → typeOf nd.name ≠ "all" ∧ typeOf nd.name ≠ "_meta") →
      p.v4loop + ns.length ≤ 2 ^ 8 → p.v6loop + ns.length ≤ 2 ^ 95 →
      ∃ inv2 p2, ns.foldlM (addNode labName) (inv, p) = Except.ok (inv2, p2) ∧
        p2.v6loop = p.v6loop + ns.length ∧ p2.v4loop = p.v4loop + ns.length ∧
        p2.v6link = p.v6link ∧ p2.v4link = p.v4link := by
  induction ns with
  | nil =>
    intro inv p cs hch hWF hres h4 h6
    exact ⟨inv, p, rfl, by simp, by simp, rfl, rfl⟩
  | cons nd ns ih =>
    intro inv p cs hch hWF hres h4 h6
    simp only [List.length_cons] at h4 h6
    obtain ⟨hndall, hndmeta⟩ := hres nd (List.mem_cons_self nd ns)
    have hstep := addNode_ok labName inv p nd cs hch
      (fun hmem => (InvWF_some hch hWF _).mp hmem) hndmeta (by omega) (by omega)
    have hch2 := addNodeResult_children_some labName inv p nd cs hch hndall
    have hWF2 := addNodeResult_WF labName inv p nd cs hch hndall hWF
    obtain ⟨inv2, p2, hfold, hp6, hp4, hl6, hl4⟩ :=
      ih (addNodeResult labName inv p nd).1 (addNodeResult labName inv p nd).2
        (if typeOf nd.name ∈ cs then cs else cs ++ [typeOf nd.name]) hch2 hWF2
        (fun nd2 hnd2 => hres nd2 (List.mem_cons_of_mem nd hnd2))
        (by rw [addNodeResult_pools]; simp; omega)
        (by rw [addNodeResult_pools]; simp; omega)
    refine ⟨inv2, p2, ?_, ?_, ?_, ?_, ?_⟩
    · rw [List.foldlM_cons, hstep]
      simpa [Bind.bind, Except.bind] using hfold
    · rw [hp6, addNodeResult_pools]; simp; omega
    · rw [hp4, addNodeResult_pools]; simp; omega
    · rw [hl6, addNodeResult_pools]
    · rw [hl4, addNodeResult_pools]

theorem nodesFold_ok_inv (labName : String) (ns : List NodeDecl) :
    ∀ (inv : Inventory) (p : Pools) (inv2 : Inventory) (p2 : Pools),
      ns.foldlM (addNode labName) (inv, p) = Except.ok (inv2, p2) →
      p2.v6loop = p.v6loop + ns.length ∧ p2.v4loop = p.v4loop + ns.length ∧
        p2.v6link = p.v6link ∧ p2.v4link = p.v4link ∧
        (∀ m, m < ns.length → p.v4loop + m < 2 ^ 8) := by
  induction ns with
  | nil =>
    intro inv p inv2 p2 h
    injection h with h2
    injection h2 with hi hp
    subst hp
    exact ⟨by simp, by simp, rfl, rfl, by simp⟩
  | cons nd ns ih =>
    intro inv p inv2 p2 h
    obtain ⟨st1, hstep, hrest⟩ := foldlM_ok_cons _ _ _ _ h
    obtain ⟨h4, h6, hcso, hmo, hres⟩ := addNode_ok_inv labName inv p nd st1 hstep
    subst hres
    have hsplit : (addNodeResult labName inv p nd)
        = ((addNodeResult labName inv p nd).1, (addNodeResult labName inv p nd).2) := rfl
    rw [hsplit] at hrest
    obtain ⟨hp6, hp4, hl6, hl4, hcap⟩ := ih _ _ _ _ hrest
    rw [addNodeResult_pools] at hp6 hp4 hl6 hl4
    simp only [addNodeResult_pools] at hcap
    simp at hp6 hp4 hl6 hl4
    refine ⟨by simp; omega, by simp; omega, hl6, hl4, ?_⟩
    intro m hm
    cases m with
    | zero => simpa using h4
    | succ m =>
      have := hcap m (by simpa using Nat.lt_of_succ_lt_succ hm)
      simp at this
      omega


theorem nodesFold_preserve (labName : String) (ns : List NodeDecl) :
    ∀ (inv : Inventory) (p : Pools) (inv2 : Inventory) (p2 : Pools) (key : String),
      ns.foldlM (addNode labName) (inv, p) = Except.ok (inv2, p2) →
      ¬key ∈ ns.map NodeDecl.name →
      lookupA inv2.hostvars key = lookupA inv.hostvars key := by
  induction ns with
  | nil =>
    intro inv p inv2 p2 key h _
    injection h with h2
    injection h2 with hi hp
    rw [← hi]
  | cons nd ns ih =>
    intro inv p inv2 p2 key h hkey
    obtain ⟨st1, hstep, hrest⟩ := foldlM_ok_cons _ _ _ _ h
    obtain ⟨h4, h6, hcso, hmo, hres⟩ := addNode_ok_inv _ _ _ _ _ hstep
    subst hres
    simp only [List.map_cons, List.mem_cons] at hkey
    push_neg at hkey
    rw [show addNodeResult labName inv p nd
        = ((addNodeResult labName inv p nd).1, (addNodeResult labName inv p nd).2) from rfl]
      at hrest
    rw [ih _ _ _ _ key hrest (by simpa using hkey.2)]
    rw [addNodeResult_hostvars]
    exact lookupA_updateA_ne _ _ (fun he => hkey.1 he.symm)

theorem nodesFold_hostvars (labName : String) (ns : List NodeDecl) :
    ∀ (inv : Inventory) (p : Pools) (inv2 : Inventory) (p2 : Pools) (m : Nat)
      (hm : m < ns.length),
      ns.foldlM (addNode labName) (inv, p) = Except.ok (inv2, p2) →
      ¬(ns.get ⟨m, hm⟩).name ∈ (ns.drop (m + 1)).map NodeDecl.name →
      lookupA inv2.hostvars (ns.get ⟨m, hm⟩).name
        = some (nodeHV labName (ns.get ⟨m, hm⟩) (p.v6loop + m) (p.v4loop + m)) := by
  induction ns with
  | nil =>
    intro inv p inv2 p2 m hm
    exact absurd hm (by simp)
  | cons nd ns ih =>
    intro inv p inv2 p2 m hm h hafter
    obtain ⟨st1, hstep, hrest⟩ := foldlM_ok_cons _ _ _ _ h
    obtain ⟨h4, h6, hcso, hmo, hres⟩ := addNode_ok_inv _ _ _ _ _ hstep
    subst hres
    rw [show addNodeResult labName inv p nd
        = ((addNodeResult labName inv p nd).1, (addNodeResult labName inv p nd).2) from rfl]
      at hrest
    cases m with
    | zero =>
      have hafter0 : ¬nd.name ∈ ns.map NodeDecl.name := by simpa using hafter
      have hpres := nodesFold_preserve labName ns _ _ _ _ nd.name hrest hafter0
      show lookupA inv2.hostvars nd.name
        = some (nodeHV labName nd (p.v6loop + 0) (p.v4loop + 0))
      rw [hpres, addNodeResult_hostvars, lookupA_updateA_self]
      simp
    | succ m =>
      have hmx : m < ns.length := by simpa using Nat.lt_of_succ_lt_succ hm
      have hafter2 : ¬(ns.get ⟨m, hmx⟩).name ∈ (ns.drop (m + 1)).map NodeDecl.name := by
        simpa using hafter
      have hv := ih _ _ _ _ m hmx hrest hafter2
      rw [addNodeResult_pools] at hv
      have e6 : ({ p with v6loop := p.v6loop + 1, v4loop := p.v4loop + 1 } : Pools).v6loop + m
          = p.v6loop + (m + 1) := by simp; omega
      have e4 : ({ p with v6loop := p.v6loop + 1, v4loop := p.v4loop + 1 } : Pools).v4loop + m
          = p.v4loop + (m + 1) := by simp; omega
      rw [e6, e4] at hv
      simp only [List.get_cons_succ]
      exact hv

theorem nodesFold_children (labName : String) (ns : List NodeDecl) :
    ∀ (inv : Inventory) (p : Pools) (inv2 : Inventory) (p2 : Pools) (cs : List String),
      ns.foldlM (addNode labName) (inv, p) = Except.ok (inv2, p2) →
      inv.children = some cs →
      (∀ nd, nd ∈ ns → typeOf nd.name ≠ "all") →
      inv2.children = some (childrenAfter cs (ns.map fun nd => typeOf nd.name)) := by
  induction ns with
  | nil =>
    intro inv p inv2 p2 cs h hch _
    injection h with h2
    injection h2 with hi hp
    rw [← hi]
    exact hch
  | cons nd ns ih =>
    intro inv p inv2 p2 cs h hch hall
    obtain ⟨st1, hstep, hrest⟩ := foldlM_ok_cons _ _ _ _ h
    obtain ⟨h4, h6, hcso, hmo, hres⟩ := addNode_ok_inv _ _ _ _ _ hstep
    subst hres
    rw [show addNodeResult labName inv p nd
        = ((addNodeResult labName inv p nd).1, (addNodeResult labName inv p nd).2) from rfl]
      at hrest
    have hch2 := addNodeResult_children_some labName inv p nd cs hch
      (hall nd (List.mem_cons_self nd ns))
    rw [ih _ _ _ _ _ hrest hch2 (fun nd2 hnd2 => hall nd2 (List.mem_cons_of_mem nd hnd2))]
    rfl

theorem nodesFold_WF (labName : String) (ns : List NodeDecl) :
    ∀ (inv : Inventory) (p : Pools) (inv2 : Inventory) (p2 : Pools) (cs : List String),
      ns.foldlM (addNode labName) (inv, p) = Except.ok (inv2, p2) →
      inv.children = some cs →
      (∀ nd, nd ∈ ns → typeOf nd.name ≠ "all") →
      InvWF inv → InvWF inv2 := by
  induction ns with
  | nil =>
    intro inv p inv2 p2 cs h _ _ hWF
    injection h with h2
    injection h2 with hi hp
    rw [← hi]
    exact hWF
  | cons nd ns ih =>
    intro inv p inv2 p2 cs h hch hall hWF
    obtain ⟨st1, hstep, hrest⟩ := foldlM_ok_cons _ _ _ _ h
    obtain ⟨h4, h6, hcso, hmo, hres⟩ := addNode_ok_inv _ _ _ _ _ hstep
    subst hres
    rw [show addNodeResult labName inv p nd
        = ((addNodeResult labName inv p nd).1, (addNodeResult labName inv p nd).2) from rfl]
      at hrest
    have hndall := hall nd (List.mem_cons_self nd ns)
    exact ih _ _ _ _ _ hrest (addNodeResult_children_some labName inv p nd cs hch hndall)
      (fun nd2 hnd2 => hall nd2 (List.mem_cons_of_mem nd hnd2))
      (addNodeResult_WF labName inv p nd cs hch hndall hWF)

theorem hostsOfType_cons_eq (nd : NodeDecl) (ns : List NodeDecl) (t : String)
    (h : typeOf nd.name = t) :
    hostsOfType (nd :: ns) t = nd.name :: hostsOfType ns t := by
  simp [hostsOfType, List.filter_cons, h]

theorem hostsOfType_cons_ne (nd : NodeDecl) (ns : List NodeDecl) (t : String)
    (h : ¬typeOf nd.name = t) :
    hostsOfType (nd :: ns) t = hostsOfType ns t := by
  simp [hostsOfType, List.filter_cons, h]

theorem firstOfType_cons_eq (nd : NodeDecl) (ns : List NodeDecl) (t : String)
    (h : typeOf nd.name = t) :
    firstOfType (nd :: ns) t = some nd := by
  simp [firstOfType, List.filter_cons, h]

theorem firstOfType_cons_ne (nd : NodeDecl) (ns : List NodeDecl) (t : String)
    (h : ¬typeOf nd.name = t) :
    firstOfType (nd :: ns) t = firstOfType ns t := by
  simp [firstOfType, List.filter_cons, h]

/-- One registration step transforms the group map pointwise: the group of
the node type gains the node, everything else is untouched. -/
theorem addNodeResult_groups_lookup (labName : String) (inv : Inventory) (p : Pools)
    (nd : NodeDecl) (cs : List String) (hch : inv.children = some cs) (hWF : InvWF inv)
    (t : String) :
    lookupA (addNodeResult labName inv p nd).1.groups t
      = match lookupA inv.groups t with
        | some g => some (if typeOf nd.name = t
            then (⟨g.hosts ++ [nd.name], g.vars⟩ : TypeGroup) else g)
        | none => if typeOf nd.name = t
            then some (⟨[nd.name], kindVars nd.kind⟩ : TypeGroup) else none := by
  have hWFs := InvWF_some hch hWF
  by_cases hmem : typeOf nd.name ∈ cs
  · obtain ⟨g0, hg0⟩ := Option.isSome_iff_exists.mp ((hWFs _).mp hmem)
    have hg0x : lookupA inv.groups (typeOf nd.name) = some g0 := hg0
    rw [addNodeResult_groups_mem labName inv p nd g0 cs hch hmem hg0x]
    by_cases ht : typeOf nd.name = t
    · subst ht
      rw [lookupA_updateA_self, hg0x]
      simp
    · rw [lookupA_updateA_ne _ _ ht]
      cases hl : lookupA inv.groups t with
      | some g => simp [ht]
      | none => simp [ht]
  · have hg : lookupA inv.groups (typeOf nd.name) = none := by
      cases hl : lookupA inv.groups (typeOf nd.name) with
      | none => rfl
      | some g => exact absurd ((hWFs _).mpr (by simp [hl])) hmem
    rw [addNodeResult_groups_new labName inv p nd cs hch hmem hg]
    by_cases ht : typeOf nd.name = t
    · subst ht
      rw [lookupA_append_new_self _ _ _ hg, hg]
      simp
    · rw [lookupA_append_new_ne _ _ _ _ ht]
      cases hl : lookupA inv.groups t with
      | some g => simp [ht]
      | none => simp [ht]

theorem nodesFold_groups (labName : String) (ns : List NodeDecl) :
    ∀ (inv : Inventory) (p : Pools) (inv2 : Inventory) (p2 : Pools) (cs : List String),
      ns.foldlM (addNode labName) (inv, p) = Except.ok (inv2, p2) →
      inv.children = some cs → InvWF inv →
      ∀ t, lookupA inv2.groups t
        = match lookupA inv.groups t with
          | some g => some ⟨g.hosts ++ hostsOfType ns t, g.vars⟩
          | none =>
            match firstOfType ns t with
            | some nd => some ⟨hostsOfType ns t, kindVars nd.kind⟩
            | none => none := by
  induction ns with
  | nil =>
    intro inv p inv2 p2 cs h hch hWF t
    injection h with h2
    injection h2 with hi hp
    rw [← hi]
    cases hl : lookupA inv.groups t with
    | some g => simp [hostsOfType, firstOfType]
    | none => simp [hostsOfType, firstOfType]
  | cons nd ns ih =>
    intro inv p inv2 p2 cs h hch hWF t
    obtain ⟨st1, hstep, hrest⟩ := foldlM_ok_cons _ _ _ _ h
    obtain ⟨h4, h6, hcso, hmo, hres⟩ := addNode_ok_inv _ _ _ _ _ hstep
    subst hres
    rw [show addNodeResult labName inv p nd
        = ((addNodeResult labName inv p nd).1, (addNodeResult labName inv p nd).2) from rfl]
      at hrest
    have hWFs := InvWF_some hch hWF
    by_cases hmem : typeOf nd.name ∈ cs
    · -- the type group exists: the step only appends the node to it
      obtain ⟨g0, hg0⟩ := Option.isSome_iff_exists.mp ((hWFs _).mp hmem)
      have hg0x : lookupA inv.groups (typeOf nd.name) = some g0 := hg0
      have hch2 : (addNodeResult labName inv p nd).1.children = some cs := by
        rw [addNodeResult_children_mem labName inv p nd cs hch hmem]
        exact hch
      have hWF2 := addNodeResult_WF_mem labName inv p nd cs hch hmem hWF
      have hIH := ih _ _ _ _ _ hrest hch2 hWF2 t
      rw [addNodeResult_groups_mem labName inv p nd g0 cs hch hmem hg0x] at hIH
      by_cases ht : typeOf nd.name = t
      · subst ht
        rw [lookupA_updateA_self] at hIH
        rw [hIH, hg0x]
        rw [hostsOfType_cons_eq nd ns _ rfl]
        simp
      · rw [lookupA_updateA_ne _ _ ht] at hIH
        rw [hIH]
        rw [hostsOfType_cons_ne nd ns t ht, firstOfType_cons_ne nd ns t ht]
    · have hg : lookupA inv.groups (typeOf nd.name) = none := by
        cases hl : lookupA inv.groups (typeOf nd.name) with
        | none => rfl
        | some g => exact absurd ((hWFs _).mpr (by simp [hl])) hmem
      by_cases hall : typeOf nd.name = "all"
      · -- first occurrence of the type all: line 73 destroys the children
        -- list, so any node after this one dies at line 71 and the tail is
        -- empty
        cases ns with
        | cons nd2 ns2 =>
          exfalso
          obtain ⟨st2, hstep2, _⟩ := foldlM_ok_cons _ _ _ _ hrest
          rw [addNode_children_none labName (addNodeResult labName inv p nd).1
            (addNodeResult labName inv p nd).2 nd2
            (addNodeResult_children_all labName inv p nd cs hch hall hmem)] at hstep2
          exact absurd hstep2 (by simp)
        | nil =>
          rw [List.foldlM_nil] at hrest
          injection hrest with h2
          injection h2 with hi hp
          rw [← hi]
          rw [addNodeResult_groups_lookup labName inv p nd cs hch hWF t]
          cases hl : lookupA inv.groups t with
          | some g =>
            by_cases ht : typeOf nd.name = t <;>
              simp [hostsOfType, firstOfType, List.filter_cons, ht]
          | none =>
            by_cases ht : typeOf nd.name = t <;>
              simp [hostsOfType, firstOfType, List.filter_cons, ht]
      · have hch2 := addNodeResult_children_some labName inv p nd cs hch hall
        have hWF2 := addNodeResult_WF labName inv p nd cs hch hall hWF
        have hIH := ih _ _ _ _ _ hrest hch2 hWF2 t
        rw [addNodeResult_groups_new labName inv p nd cs hch hmem hg] at hIH
        by_cases ht : typeOf nd.name = t
        · subst ht
          rw [lookupA_append_new_self _ _ _ hg] at hIH
          rw [hIH, hg]
          rw [hostsOfType_cons_eq nd ns _ rfl, firstOfType_cons_eq nd ns _ rfl]
          simp
        · rw [lookupA_append_new_ne _ _ _ _ ht] at hIH
          rw [hIH]
          rw [hostsOfType_cons_ne nd ns t ht, firstOfType_cons_ne nd ns t ht]


/-! ## Characterization of link processing -/

theorem nextPool_ok {f : Nat → Option Nat} {i a : Nat} (h : f i = some a) :
    nextPool f i = Except.ok a := by
  unfold nextPool
  rw [h]

theorem hostsV4_31 (a : Nat) : hostsV4 a 31 = [a, a + 1] := by
  unfold hostsV4
  rfl

theorem hostsV6_127 (a : Nat) : hostsV6 a 127 = [a, a + 1] := by
  unfold hostsV6
  rfl

theorem maskNet_31_even {a : Nat} (h : a % 2 = 0) :
    maskNet 32 31 a = a ∧ maskNet 32 31 (a + 1) = a := by
  unfold maskNet
  norm_num
  omega

theorem maskNet_127_even {a : Nat} (h : a % 2 = 0) :
    maskNet 128 127 a = a ∧ maskNet 128 127 (a + 1) = a := by
  unfold maskNet
  norm_num
  omega

theorem filter_pair_fst {x y : String} (hne : x ≠ y) :
    [x, y].filter (fun h => h ≠ y) = [x] := by
  simp [List.filter_cons, hne]

theorem filter_pair_snd {x y : String} (hne : x ≠ y) :
    [x, y].filter (fun h => h ≠ x) = [y] := by
  simp [List.filter_cons, hne.symm]

theorem processEndpoint_spec (eps : List String) (v4plen v6plen : Nat) (inv : Inventory)
    (v4ips v6ips : List Nat) (e node intf nb : String) (tl : List String) (hv : HostVars)
    (a4 a6 : Nat) (s4 s6 : String) (r4 r6 : List String)
    (hsplit : strSplit e ':' = [node, intf])
    (herase : eps.erase e = nb :: tl)
    (h4 : v4ips.getLast? = some a4) (h6 : v6ips.getLast? = some a6)
    (hf4 : ((hostsV4 (maskNet 32 v4plen a4) v4plen).map ipv4Str).filter
        (fun h => h ≠ ipv4Str a4) = s4 :: r4)
    (hf6 : ((hostsV6 (maskNet 128 v6plen a6) v6plen).map ipv6Str).filter
        (fun h => h ≠ ipv6Str a6) = s6 :: r6)
    (hlook : lookupA inv.hostvars node = some hv) :
    processEndpoint eps v4plen v6plen inv v4ips v6ips e
      = Except.ok
        ({ inv with hostvars := updateA inv.hostvars node ({ hv with
            interfaces := updateA hv.interfaces intf
              ⟨ipv4Str a4 ++ "/" ++ natRepr v4plen, ipv6Str a6 ++ "/" ++ natRepr v6plen,
               (strSplit nb ':').headD "", s4, s6⟩ }) },
         v4ips.dropLast, v6ips.dropLast) := by
  unfold processEndpoint popLast
  rw [hsplit, herase, h4, h6]
  simp only [Bind.bind, Except.bind]
  rw [hf4, hf6, hlook]


/-- The interface record the first endpoint of a link receives: the last
usable host of each subnet (Python `list.pop()` takes from the end), with the
other host as neighbor address. -/
def linkConfFirst (a4 a6 : Nat) (neighbor : String) : IntfConf :=
  ⟨ipv4Str (a4 + 1) ++ "/" ++ natRepr 31, ipv6Str (a6 + 1) ++ "/" ++ natRepr 127,
   neighbor, ipv4Str a4, ipv6Str a6⟩

/-- The interface record the second endpoint of a link receives: the first
usable host of each subnet. -/
def linkConfSecond (a4 a6 : Nat) (neighbor : String) : IntfConf :=
  ⟨ipv4Str a4 ++ "/" ++ natRepr 31, ipv6Str a6 ++ "/" ++ natRepr 127,
   neighbor, ipv4Str (a4 + 1), ipv6Str (a6 + 1)⟩

theorem endpoints_ne {e1 e2 n1 i1 n2 i2 : String}
    (hs1 : strSplit e1 ':' = [n1, i1]) (hs2 : strSplit e2 ':' = [n2, i2])
    (hne : n1 ≠ n2) : e1 ≠ e2 := by
  intro he
  rw [he, hs2] at hs1
  injection hs1 with h1 _
  exact hne h1.symm

theorem addLink_two (inv : Inventory) (p : Pools) (l : Link) (e1 e2 n1 i1 n2 i2 : String)
    (hv1 hv2 : HostVars) (a4 a6 : Nat)
    (hep : l.endpoints = [e1, e2])
    (hs1 : strSplit e1 ':' = [n1, i1]) (hs2 : strSplit e2 ':' = [n2, i2])
    (hne : n1 ≠ n2)
    (ha4 : ipv4LinkNet p.v4link = some a4) (ha6 : ipv6LinkNet p.v6link = some a6)
    (h6small : p.v6link < 2 ^ 8)
    (hl1 : lookupA inv.hostvars n1 = some hv1) (hl2 : lookupA inv.hostvars n2 = some hv2) :
    addLink (inv, p) l = Except.ok
      ({ inv with hostvars := updateA (updateA inv.hostvars n1 ({ hv1 with
            interfaces := updateA hv1.interfaces i1 (linkConfFirst a4 a6 n2) })) n2 ({ hv2 with
            interfaces := updateA hv2.interfaces i2 (linkConfSecond a4 a6 n1) }) },
       { p with v6link := p.v6link + 1, v4link := p.v4link + 1 }) := by
  obtain ⟨hne4, hev4⟩ := link4Str_ne ha4
  obtain ⟨hne6, hev6⟩ := link6Str_ne h6small ha6
  have he12 : e1 ≠ e2 := endpoints_ne hs1 hs2 hne
  have herase1 : ([e1, e2] : List String).erase e1 = [e2] := by
    rw [List.erase_cons_head]
  have herase2 : ([e1, e2] : List String).erase e2 = [e1] := by
    rw [List.erase_cons]
    rw [if_neg (by simpa using he12)]
    rw [List.erase_cons_head]
  have hmask4 := maskNet_31_even hev4
  have hmask6 := maskNet_127_even hev6
  have hf4a : ((hostsV4 (maskNet 32 31 (a4 + 1)) 31).map ipv4Str).filter
      (fun h => h ≠ ipv4Str (a4 + 1)) = ipv4Str a4 :: [] := by
    rw [hmask4.2, hostsV4_31]
    simp only [List.map]
    exact filter_pair_fst hne4
  have hf4b : ((hostsV4 (maskNet 32 31 a4) 31).map ipv4Str).filter
      (fun h => h ≠ ipv4Str a4) = ipv4Str (a4 + 1) :: [] := by
    rw [hmask4.1, hostsV4_31]
    simp only [List.map]
    exact filter_pair_snd hne4
  have hf6a : ((hostsV6 (maskNet 128 127 (a6 + 1)) 127).map ipv6Str).filter
      (fun h => h ≠ ipv6Str (a6 + 1)) = ipv6Str a6 :: [] := by
    rw [hmask6.2, hostsV6_127]
    simp only [List.map]
    exact filter_pair_fst hne6
  have hf6b : ((hostsV6 (maskNet 128 127 a6) 127).map ipv6Str).filter
      (fun h => h ≠ ipv6Str a6) = ipv6Str (a6 + 1) :: [] := by
    rw [hmask6.1, hostsV6_127]
    simp only [List.map]
    exact filter_pair_snd hne6
  have hpe1 := processEndpoint_spec [e1, e2] 31 127 inv [a4, a4 + 1] [a6, a6 + 1] e1 n1 i1 e2
    [] hv1 (a4 + 1) (a6 + 1) (ipv4Str a4) (ipv6Str a6) [] [] hs1 herase1 rfl rfl hf4a hf6a hl1
  rw [hs2] at hpe1
  simp only [List.headD, List.dropLast] at hpe1
  set hvA := ({ hv1 with
      interfaces := updateA hv1.interfaces i1 (linkConfFirst a4 a6 n2) } : HostVars) with hA
  set invA := ({ inv with hostvars := updateA inv.hostvars n1 hvA } : Inventory) with hIA
  have hpe1x : processEndpoint [e1, e2] 31 127 inv [a4, a4 + 1] [a6, a6 + 1] e1
      = Except.ok (invA, [a4], [a6]) := by
    rw [hpe1, hIA, hA]
    simp [linkConfFirst]
  have hl2b : lookupA invA.hostvars n2 = some hv2 := by
    rw [hIA]
    show lookupA (updateA inv.hostvars n1 hvA) n2 = some hv2
    rw [lookupA_updateA_ne _ _ hne]
    exact hl2
  have hpe2 := processEndpoint_spec [e1, e2] 31 127 invA [a4] [a6] e2 n2 i2 e1
    [] hv2 a4 a6 (ipv4Str (a4 + 1)) (ipv6Str (a6 + 1)) [] [] hs2 herase2 rfl rfl hf4b hf6b hl2b
  rw [hs1] at hpe2
  simp only [List.headD, List.dropLast] at hpe2
  unfold addLink
  rw [hep]
  dsimp only
  rw [nextPool_ok ha4, nextPool_ok ha6]
  simp only [Bind.bind, Except.bind, hostsV4_31, hostsV6_127]
  unfold linkLoop
  rw [hpe1x]
  simp only [Bind.bind, Except.bind]
  unfold linkLoop
  rw [hpe2]
  simp only [Bind.bind, Except.bind]
  unfold linkLoop
  simp [hIA, hA, linkConfFirst, linkConfSecond]


/-! ## Inversion of successful link processing -/

/-- The node-level fields of a host record (everything except the interface
map). -/
def hvCore (hv : HostVars) : String × String × String × String :=
  (hv.ansible_host, hv.loopback_ipv6, hv.loopback_ipv4, hv.clns_net)

theorem processEndpoint_ok_shape (eps : List String) (v4plen v6plen : Nat) (inv : Inventory)
    (v4ips v6ips : List Nat) (e : String) (out : Inventory × List Nat × List Nat)
    (h : processEndpoint eps v4plen v6plen inv v4ips v6ips e = Except.ok out) :
    ∃ node hv conf, lookupA inv.hostvars node = some hv ∧
      out.1 = { inv with hostvars := updateA inv.hostvars node ({ hv with
        interfaces := conf }) } ∧
      (∀ n2 i2, strSplit e ':' = [n2, i2] → n2 = node) := by
  unfold processEndpoint popLast at h
  cases hsp : strSplit e ':' with
  | nil => rw [hsp] at h; simp [Bind.bind, Except.bind] at h
  | cons n t =>
    cases t with
    | nil => rw [hsp] at h; simp [Bind.bind, Except.bind] at h
    | cons i t2 =>
      cases t2 with
      | cons x t3 => rw [hsp] at h; simp [Bind.bind, Except.bind] at h
      | nil =>
        rw [hsp] at h
        simp only [Bind.bind, Except.bind] at h
        cases her : eps.erase e with
        | nil => rw [her] at h; simp at h
        | cons nb tl =>
          rw [her] at h
          simp only at h
          cases h4 : v4ips.getLast? with
          | none => rw [h4] at h; simp at h
          | some a4 =>
            rw [h4] at h
            simp only at h
            cases h6 : v6ips.getLast? with
            | none => rw [h6] at h; simp at h
            | some a6 =>
              rw [h6] at h
              simp only at h
              cases hf4 : ((hostsV4 (maskNet 32 v4plen a4) v4plen).map ipv4Str).filter
                  (fun hx => hx ≠ ipv4Str a4) with
              | nil => rw [hf4] at h; simp at h
              | cons s4 r4 =>
                rw [hf4] at h
                simp only at h
                cases hf6 : ((hostsV6 (maskNet 128 v6plen a6) v6plen).map ipv6Str).filter
                    (fun hx => hx ≠ ipv6Str a6) with
                | nil => rw [hf6] at h; simp at h
                | cons s6 r6 =>
                  rw [hf6] at h
                  simp only at h
                  cases hlk : lookupA inv.hostvars n with
                  | none => rw [hlk] at h; simp at h
                  | some hv =>
                    rw [hlk] at h
                    simp only at h
                    injection h with h2
                    refine ⟨n, hv, updateA hv.interfaces i
                      ⟨ipv4Str a4 ++ "/" ++ natRepr v4plen, ipv6Str a6 ++ "/" ++ natRepr v6plen,
                       (strSplit nb ':').headD "", s4, s6⟩, hlk, ?_, ?_⟩
                    · rw [← h2]
                    · intro n2 i2 hsp2
                      injection hsp2 with ha _
                      exact ha.symm

theorem linkLoop_ok_inv (eps : List String) (v4plen v6plen : Nat) :
    ∀ (es : List String) (inv : Inventory) (v4ips v6ips : List Nat)
      (out : Inventory × List Nat × List Nat),
      linkLoop eps v4plen v6plen inv v4ips v6ips es = Except.ok out →
      out.1.children = inv.children ∧ out.1.groups = inv.groups ∧
      ∀ key, (lookupA out.1.hostvars key).map hvCore
        = (lookupA inv.hostvars key).map hvCore := by
  intro es
  induction es with
  | nil =>
    intro inv v4ips v6ips out h
    injection h with h2
    rw [← h2]
    exact ⟨rfl, rfl, fun key => rfl⟩
  | cons e es ih =>
    intro inv v4ips v6ips out h
    unfold linkLoop at h
    obtain ⟨st1, hstep, hrest⟩ := bindOk h
    obtain ⟨node, hv, conf, hlk, hshape, _⟩ :=
      processEndpoint_ok_shape eps v4plen v6plen inv v4ips v6ips e st1 hstep
    have hrest2 : linkLoop eps v4plen v6plen st1.1 st1.2.1 st1.2.2 es = Except.ok out := by
      rw [show st1 = (st1.1, st1.2.1, st1.2.2) from rfl] at hrest
      exact hrest
    obtain ⟨hc, hg, hh⟩ := ih st1.1 st1.2.1 st1.2.2 out hrest2
    rw [hshape] at hc hg hh
    refine ⟨hc, hg, fun key => ?_⟩
    rw [hh key]
    by_cases hk : node = key
    · subst hk
      rw [lookupA_updateA_self, hlk]
      rfl
    · rw [lookupA_updateA_ne _ _ hk]

theorem ipv4LinkNet_lt {i a : Nat} (h : ipv4LinkNet i = some a) : i < 2 ^ 8 := by
  unfold ipv4LinkNet at h
  by_cases h1 : i < 2 ^ 7
  · omega
  · rw [if_neg h1] at h
    by_cases h2 : i < 2 ^ 8
    · exact h2
    · rw [if_neg h2] at h
      exact absurd h (by simp)

theorem addLink_ok_inv (inv : Inventory) (p : Pools) (l : Link) (inv2 : Inventory)
    (p2 : Pools) (h : addLink (inv, p) l = Except.ok (inv2, p2)) :
    p2 = { p with v6link := p.v6link + 1, v4link := p.v4link + 1 } ∧ p.v4link < 2 ^ 8 ∧
    inv2.children = inv.children ∧ inv2.groups = inv.groups ∧
    ∀ key, (lookupA inv2.hostvars key).map hvCore
      = (lookupA inv.hostvars key).map hvCore := by
  unfold addLink at h
  dsimp only at h
  cases ha4 : nextPool ipv4LinkNet p.v4link with
  | error e => rw [ha4] at h; simp [Bind.bind, Except.bind] at h
  | ok a4 =>
    rw [ha4] at h
    simp only [Bind.bind, Except.bind] at h
    have hlt : p.v4link < 2 ^ 8 := by
      unfold nextPool at ha4
      cases hx : ipv4LinkNet p.v4link with
      | none => rw [hx] at ha4; simp at ha4
      | some a => exact ipv4LinkNet_lt hx
    cases ha6 : nextPool ipv6LinkNet p.v6link with
    | error e => rw [ha6] at h; simp at h
    | ok a6 =>
      rw [ha6] at h
      simp only at h
      cases hll : linkLoop l.endpoints 31 127 inv (hostsV4 a4 31) (hostsV6 a6 127)
          l.endpoints with
      | error e => rw [hll] at h; simp at h
      | ok out =>
        rw [hll] at h
        rw [show out = (out.1, out.2.1, out.2.2) from rfl] at h
        simp only at h
        injection h with h2
        injection h2 with hi hp
        obtain ⟨hc, hg, hh⟩ := linkLoop_ok_inv l.endpoints 31 127 l.endpoints inv
          (hostsV4 a4 31) (hostsV6 a6 127) out hll
        subst hi
        exact ⟨hp.symm, hlt, hc, hg, hh⟩

theorem linksFold_ok_inv (ls : List Link) :
    ∀ (inv : Inventory) (p : Pools) (inv2 : Inventory) (p2 : Pools),
      ls.foldlM addLink (inv, p) = Except.ok (inv2, p2) →
      p2.v4link = p.v4link + ls.length ∧ p2.v6link = p.v6link + ls.length ∧
      inv2.children = inv.children ∧ inv2.groups = inv.groups ∧
      (∀ key, (lookupA inv2.hostvars key).map hvCore
        = (lookupA inv.hostvars key).map hvCore) ∧
      (∀ m, m < ls.length → p.v4link + m < 2 ^ 8) := by
  induction ls with
  | nil =>
    intro inv p inv2 p2 h
    injection h with h2
    injection h2 with hi hp
    subst hi
    subst hp
    exact ⟨by simp, by simp, rfl, rfl, fun key => rfl, by simp⟩
  | cons l ls ih =>
    intro inv p inv2 p2 h
    obtain ⟨st1, hstep, hrest⟩ := foldlM_ok_cons _ _ _ _ h
    rw [show st1 = (st1.1, st1.2) from rfl] at hrest
    obtain ⟨hps, hlt, hc1, hg1, hh1⟩ := addLink_ok_inv inv p l st1.1 st1.2
      (by rw [← show st1 = (st1.1, st1.2) from rfl]; exact hstep)
    obtain ⟨hp4, hp6, hc2, hg2, hh2, hcap⟩ := ih st1.1 st1.2 inv2 p2 hrest
    rw [hps] at hp4 hp6
    simp at hp4 hp6
    refine ⟨?_, ?_, hc2.trans hc1, hg2.trans hg1, ?_, ?_⟩
    · simp only [List.length_cons]
      omega
    · simp only [List.length_cons]
      omega
    · intro key
      rw [hh2 key, hh1 key]
    · intro m hm
      cases m with
      | zero => simpa using hlt
      | succ m =>
        have := hcap m (by simpa using Nat.lt_of_succ_lt_succ hm)
        rw [hps] at this
        simp at this
        omega


/-! ## From a successful build to per-node facts -/

theorem buildInventory_ok_inv (lab : Lab) (inv : Inventory)
    (h : buildInventory lab = Except.ok inv) :
    ∃ invN pN pL, addLabNodes lab (initInventory, initPools) = Except.ok (invN, pN) ∧
      lab.links.foldlM addLink (invN, pN) = Except.ok (inv, pL) := by
  unfold buildInventory at h
  obtain ⟨st1, h1, h2⟩ := bindOk h
  obtain ⟨st2, h2a, h2b⟩ := bindOk h2
  injection h2b with h3
  refine ⟨st1.1, st1.2, st2.2, ?_, ?_⟩
  · rw [show st1 = (st1.1, st1.2) from rfl] at h1
    exact h1
  · unfold addLabLinks at h2a
    rw [show st1 = (st1.1, st1.2) from rfl] at h2a
    rw [show st2 = (st2.1, st2.2) from rfl, h3] at h2a
    exact h2a

theorem nodup_not_mem_drop {α : Type} :
    ∀ (l : List α) (m : Nat) (hm : m < l.length), l.Nodup →
      ¬l.get ⟨m, hm⟩ ∈ l.drop (m + 1) := by
  intro l
  induction l with
  | nil => intro m hm; exact absurd hm (by simp)
  | cons x xs ih =>
    intro m hm hnd
    rw [List.nodup_cons] at hnd
    cases m with
    | zero =>
      intro hmem
      exact hnd.1 (by simpa using hmem)
    | succ m =>
      have hmx : m < xs.length := by simpa using Nat.lt_of_succ_lt_succ hm
      simpa using ih m hmx hnd.2

theorem get_map_name (ns : List NodeDecl) (m : Nat) (hm : m < ns.length) :
    (ns.map NodeDecl.name).get ⟨m, by simpa using hm⟩ = (ns.get ⟨m, hm⟩).name := by
  simp

theorem build_hostvars (lab : Lab) (inv : Inventory)
    (hnodup : (lab.nodes.map NodeDecl.name).Nodup)
    (hok : buildInventory lab = Except.ok inv) (m : Nat) (hm : m < lab.nodes.length) :
    ∃ hv, lookupA inv.hostvars ((lab.nodes.get ⟨m, hm⟩).name) = some hv ∧
      hv.ansible_host = "clab-" ++ lab.name ++ "-" ++ (lab.nodes.get ⟨m, hm⟩).name ∧
      hv.loopback_ipv4 = ipv4Str (LOOP4BASE + m) ∧
      hv.loopback_ipv6 = ipv6Str (LOOP6BASE + m) ∧
      hv.clns_net = clnsNet (ipv4Str (LOOP4BASE + m)) ∧ m < 2 ^ 8 := by
  obtain ⟨invN, pN, pL, hN, hL⟩ := buildInventory_ok_inv lab inv hok
  have hafter : ¬(lab.nodes.get ⟨m, hm⟩).name
      ∈ (lab.nodes.drop (m + 1)).map NodeDecl.name := by
    intro hmem
    apply nodup_not_mem_drop (lab.nodes.map NodeDecl.name) m (by simpa using hm) hnodup
    rw [get_map_name]
    rw [← List.map_drop]
    exact hmem
  have hhv := nodesFold_hostvars lab.name lab.nodes initInventory initPools invN pN m hm
    hN hafter
  obtain ⟨hp6, hp4, hl6, hl4, hcap⟩ := nodesFold_ok_inv lab.name lab.nodes initInventory
    initPools invN pN hN
  obtain ⟨hp4L, hp6L, hcL, hgL, hhL, hcapL⟩ := linksFold_ok_inv lab.links invN pN inv pL hL
  have hcore := hhL ((lab.nodes.get ⟨m, hm⟩).name)
  rw [hhv] at hcore
  cases hfin : lookupA inv.hostvars ((lab.nodes.get ⟨m, hm⟩).name) with
  | none => rw [hfin] at hcore; simp at hcore
  | some hv =>
    rw [hfin] at hcore
    simp only [Option.map, initPools, Nat.zero_add] at hcore
    injection hcore with hcore2
    refine ⟨hv, rfl, ?_, ?_, ?_, ?_, ?_⟩
    · exact congrArg (fun q => q.1) hcore2
    · exact congrArg (fun q => q.2.2.1) hcore2
    · exact congrArg (fun q => q.2.1) hcore2
    · exact congrArg (fun q => q.2.2.2) hcore2
    · have h2 := hcap m hm
      simp only [initPools, Nat.zero_add] at h2
      simpa using h2


/-- On every loopback address the program can allocate, the code slice
digits[8:] and the specification slice digits[8:12] agree (the padded string
always has exactly 12 characters). -/
theorem clns_eq_spec : ∀ k : Fin 256,
    clnsNet (ipv4Str (LOOP4BASE + (k : Nat)))
      = clnsNetSpec (ipv4Str (LOOP4BASE + (k : Nat))) := by
  decide

theorem childrenAfter_nodup :
    ∀ (ts cs : List String), cs.Nodup → (childrenAfter cs ts).Nodup := by
  intro ts
  induction ts with
  | nil => intro cs h; exact h
  | cons t ts ih =>
    intro cs h
    show (childrenAfter (if t ∈ cs then cs else cs ++ [t]) ts).Nodup
    by_cases hmem : t ∈ cs
    · rw [if_pos hmem]; exact ih cs h
    · rw [if_neg hmem]
      refine ih _ ?_
      simp [List.nodup_append, h, hmem]

theorem mem_childrenAfter :
    ∀ (ts cs : List String) (x : String), x ∈ childrenAfter cs ts ↔ (x ∈ cs ∨ x ∈ ts) := by
  intro ts
  induction ts with
  | nil => intro cs x; simp [childrenAfter]
  | cons t ts ih =>
    intro cs x
    show x ∈ childrenAfter (if t ∈ cs then cs else cs ++ [t]) ts ↔ _
    rw [ih]
    by_cases hmem : t ∈ cs
    · rw [if_pos hmem]
      constructor
      · rintro (hx | hx)
        · exact Or.inl hx
        · exact Or.inr (List.mem_cons_of_mem t hx)
      · rintro (hx | hx)
        · exact Or.inl hx
        · rcases List.mem_cons.mp hx with hx2 | hx2
          · subst hx2; exact Or.inl hmem
          · exact Or.inr hx2
    · rw [if_neg hmem]
      constructor
      · rintro (hx | hx)
        · rcases List.mem_append.mp hx with hx2 | hx2
          · exact Or.inl hx2
          · simp at hx2
            exact Or.inr (by rw [hx2]; exact List.mem_cons_self _ _)
        · exact Or.inr (List.mem_cons_of_mem t hx)
      · rintro (hx | hx)
        · exact Or.inl (List.mem_append.mpr (Or.inl hx))
        · rcases List.mem_cons.mp hx with hx2 | hx2
          · subst hx2; exact Or.inl (List.mem_append.mpr (Or.inr (by simp)))
          · exact Or.inr hx2

theorem name_determines_node {ns : List NodeDecl}
    (hnodup : (ns.map NodeDecl.name).Nodup) {a b : NodeDecl}
    (ha : a ∈ ns) (hb : b ∈ ns) (hname : a.name = b.name) : a = b := by
  exact List.inj_on_of_nodup_map hnodup ha hb hname

theorem mem_hostsOfType {ns : List NodeDecl}
    (hnodup : (ns.map NodeDecl.name).Nodup) {nd : NodeDecl} (hmem : nd ∈ ns)
    (t : String) : nd.name ∈ hostsOfType ns t ↔ t = typeOf nd.name := by
  constructor
  · intro h
    unfold hostsOfType at h
    obtain ⟨nd2, hnd2, hname⟩ := List.mem_map.mp h
    have hfilt := List.mem_filter.mp hnd2
    have heq : nd2 = nd :=
      name_determines_node hnodup (hfilt.1) hmem hname
    rw [← heq]
    exact (of_decide_eq_true hfilt.2).symm
  · intro h
    unfold hostsOfType
    refine List.mem_map.mpr ⟨nd, List.mem_filter.mpr ⟨hmem, ?_⟩, rfl⟩
    exact decide_eq_true h.symm

theorem ipv4LinkNet_isSome {i : Nat} (h : i < 2 ^ 8) : ∃ a, ipv4LinkNet i = some a := by
  unfold ipv4LinkNet
  by_cases h1 : i < 2 ^ 7
  · exact ⟨_, if_pos h1⟩
  · rw [if_neg h1, if_pos h]
    exact ⟨_, rfl⟩

theorem ipv6LinkNet_isSome {i : Nat} (h : i < 2 ^ 94) : ∃ a, ipv6LinkNet i = some a := by
  unfold ipv6LinkNet
  exact ⟨_, if_pos h⟩

/-- Reading back the two interface records stored by a two-endpoint link. -/
theorem getConf_after_two (inv : Inventory) (n1 i1 n2 i2 : String)
    (hv1 hv2 : HostVars) (c1 c2 : IntfConf) (hne : n1 ≠ n2) :
    getConf { inv with hostvars := updateA (updateA inv.hostvars n1 ({ hv1 with
        interfaces := updateA hv1.interfaces i1 c1 })) n2 ({ hv2 with
        interfaces := updateA hv2.interfaces i2 c2 }) } n1 i1 = some c1 ∧
    getConf { inv with hostvars := updateA (updateA inv.hostvars n1 ({ hv1 with
        interfaces := updateA hv1.interfaces i1 c1 })) n2 ({ hv2 with
        interfaces := updateA hv2.interfaces i2 c2 }) } n2 i2 = some c2 := by
  unfold getConf
  constructor
  · show (lookupA (updateA (updateA inv.hostvars n1 _) n2 _) n1).bind _ = _
    rw [lookupA_updateA_ne _ _ (fun he => hne he.symm), lookupA_updateA_self]
    show lookupA (updateA hv1.interfaces i1 c1) i1 = some c1
    exact lookupA_updateA_self _ _ _
  · show (lookupA (updateA (updateA inv.hostvars n1 _) n2 _) n2).bind _ = _
    rw [lookupA_updateA_self]
    show lookupA (updateA hv2.interfaces i2 c2) i2 = some c2
    exact lookupA_updateA_self _ _ _


/-- When the endpoint names an unregistered node, endpoint processing reaches
the hostvars access and raises the unknown-node failure (the KeyError of
line 144). -/
theorem processEndpoint_unknown (eps : List String) (v4plen v6plen : Nat) (inv : Inventory)
    (v4ips v6ips : List Nat) (e node intf nb : String) (tl : List String)
    (a4 a6 : Nat) (s4 s6 : String) (r4 r6 : List String)
    (hsplit : strSplit e ':' = [node, intf])
    (herase : eps.erase e = nb :: tl)
    (h4 : v4ips.getLast? = some a4) (h6 : v6ips.getLast? = some a6)
    (hf4 : ((hostsV4 (maskNet 32 v4plen a4) v4plen).map ipv4Str).filter
        (fun h => h ≠ ipv4Str a4) = s4 :: r4)
    (hf6 : ((hostsV6 (maskNet 128 v6plen a6) v6plen).map ipv6Str).filter
        (fun h => h ≠ ipv6Str a6) = s6 :: r6)
    (hlook : lookupA inv.hostvars node = none) :
    processEndpoint eps v4plen v6plen inv v4ips v6ips e
      = Except.error Err.unknownEndpointNode := by
  unfold processEndpoint popLast
  rw [hsplit, herase, h4, h6]
  simp only [Bind.bind, Except.bind]
  rw [hf4, hf6, hlook]

/-- A successful two-endpoint link step presupposes that both endpoint nodes
are registered, and pins down the pool state. -/
theorem addLink_ok_two_inv (inv : Inventory) (p : Pools) (l : Link)
    (inv2 : Inventory) (p2 : Pools) (e1 e2 n1 i1 n2 i2 : String)
    (hep : l.endpoints = [e1, e2])
    (hs1 : strSplit e1 ':' = [n1, i1]) (hs2 : strSplit e2 ':' = [n2, i2])
    (hne : n1 ≠ n2)
    (h : addLink (inv, p) l = Except.ok (inv2, p2)) :
    ∃ hv1 hv2 a4 a6, lookupA inv.hostvars n1 = some hv1 ∧
      lookupA inv.hostvars n2 = some hv2 ∧
      ipv4LinkNet p.v4link = some a4 ∧ ipv6LinkNet p.v6link = some a6 ∧
      p.v4link < 2 ^ 8 := by
  unfold addLink at h
  dsimp only at h
  cases ha4 : nextPool ipv4LinkNet p.v4link with
  | error e => rw [ha4] at h; simp [Bind.bind, Except.bind] at h
  | ok a4 =>
    rw [ha4] at h
    simp only [Bind.bind, Except.bind] at h
    have ha4x : ipv4LinkNet p.v4link = some a4 := by
      unfold nextPool at ha4
      cases hx : ipv4LinkNet p.v4link with
      | none => rw [hx] at ha4; simp at ha4
      | some a => rw [hx] at ha4; injection ha4 with h2; rw [h2]
    cases ha6 : nextPool ipv6LinkNet p.v6link with
    | error e => rw [ha6] at h; simp at h
    | ok a6 =>
      rw [ha6] at h
      simp only at h
      have ha6x : ipv6LinkNet p.v6link = some a6 := by
        unfold nextPool at ha6
        cases hx : ipv6LinkNet p.v6link with
        | none => rw [hx] at ha6; simp at ha6
        | some a => rw [hx] at ha6; injection ha6 with h2; rw [h2]
      rw [hep] at h
      cases hll : linkLoop [e1, e2] 31 127 inv (hostsV4 a4 31) (hostsV6 a6 127)
          [e1, e2] with
      | error e => rw [hll] at h; simp at h
      | ok out =>
        unfold linkLoop at hll
        obtain ⟨st1, hstep1, hrest1⟩ := bindOk hll
        obtain ⟨node1, hvA, confA, hlk1, hshape1, hcompat1⟩ :=
          processEndpoint_ok_shape [e1, e2] 31 127 inv (hostsV4 a4 31) (hostsV6 a6 127)
            e1 st1 hstep1
        have hn1 : n1 = node1 := hcompat1 n1 i1 hs1
        rw [show st1 = (st1.1, st1.2.1, st1.2.2) from rfl] at hrest1
        unfold linkLoop at hrest1
        obtain ⟨st2, hstep2, _⟩ := bindOk hrest1
        obtain ⟨node2, hvB, confB, hlk2, hshape2, hcompat2⟩ :=
          processEndpoint_ok_shape [e1, e2] 31 127 st1.1 st1.2.1 st1.2.2 e2 st2 hstep2
        have hn2 : n2 = node2 := hcompat2 n2 i2 hs2
        rw [hshape1] at hlk2
        rw [← hn1] at hlk1
        rw [← hn2] at hlk2
        rw [← hn1] at hlk2
        rw [lookupA_updateA_ne _ _ hne] at hlk2
        exact ⟨hvA, hvB, a4, a6, hlk1, hlk2, ha4x, ha6x, ipv4LinkNet_lt ha4x⟩


instance exceptDecEq {α β : Type} [DecidableEq α] [DecidableEq β] :
    DecidableEq (Except α β)
  | Except.ok a, Except.ok b =>
    if h : a = b then isTrue (by rw [h]) else isFalse (fun hc => h (by injection hc))
  | Except.ok _, Except.error _ => isFalse (fun hc => Except.noConfusion hc)
  | Except.error _, Except.ok _ => isFalse (fun hc => Except.noConfusion hc)
  | Except.error e, Except.error f =>
    if h : e = f then isTrue (by rw [h]) else isFalse (fun hc => h (by injection hc))

/-! ## Concrete topologies used as test fixtures -/

def lab2 : Lab :=
  ⟨"demo", [⟨"leaf-1", "ceos"⟩, ⟨"spine-1", "ceos"⟩], [⟨["leaf-1:eth1", "spine-1:eth1"]⟩]⟩

def labC2 : Lab := ⟨"demo", [⟨"leaf-1", "ceos"⟩, ⟨"leaf-2", "ceos"⟩], []⟩

def labC6 : Lab := ⟨"demo", [⟨"spine", "ceos"⟩], []⟩

def labC7a : Lab := ⟨"demo", [⟨"leaf-1", "ceos"⟩], [⟨[]⟩]⟩

def labC7b : Lab := ⟨"demo", [⟨"leaf-1", "ceos"⟩], [⟨["leaf-1:eth1"]⟩]⟩

def labC7c : Lab :=
  ⟨"demo", [⟨"leaf-1", "ceos"⟩, ⟨"leaf-2", "ceos"⟩, ⟨"leaf-3", "ceos"⟩],
   [⟨["leaf-1:eth1", "leaf-2:eth1", "leaf-3:eth1"]⟩]⟩

def labC9 : Lab :=
  ⟨"demo", [⟨"leaf-1", "ceos"⟩, ⟨"leaf-2", "ceos"⟩, ⟨"spine-1", "srl"⟩], []⟩

def lab1 : Lab := ⟨"demo", [⟨"leaf-1", "ceos"⟩], []⟩

def lab257 : Lab := ⟨"demo", List.replicate (2 ^ 8 + 1) ⟨"a-b", "ceos"⟩, []⟩

/-- A lab whose single node has the reserved inferred type `_meta`. -/
def labMeta : Lab := ⟨"demo", [⟨"_meta-1", "ceos"⟩], []⟩

/-- The inventory a lab builds to (junk default for failing labs). -/
def invOf (lab : Lab) : Inventory := (buildInventory lab).toOption.getD ⟨some [], [], []⟩

def hvFix : HostVars := ⟨"h", "6", "4", "c", []⟩

def invFix : Inventory := ⟨some [], [], [("a", hvFix), ("b", hvFix)]⟩

def invFixA : Inventory := ⟨some [], [], [("a", hvFix)]⟩

def linkFix : Link := ⟨["a:eth1", "b:eth1"]⟩

def linkC8 : Link := ⟨["c:eth1", "a:eth1"]⟩

/-! ## The claims -/

/-- C1: the claim says the first usable host address of each family goes to
the first endpoint and the second to the second.  False: the code pops host
addresses from the END of the list (`list.pop()`), so on the first processed
link of lab2 the first endpoint leaf-1:eth1 stores 198.51.100.1/31 and
2001:db8::1/127, the SECOND usable host of each allocated subnet, not the
first. -/
theorem C1_counterexample :
    ((buildInventory lab2).toOption.bind
        fun inv => (getConf inv "leaf-1" "eth1").map IntfConf.ipv4)
      = some "198.51.100.1/31" ∧
    ipv4LinkNet 0 = some LINK4BASE1 ∧
    (hostsV4 LINK4BASE1 31).map ipv4Str = ["198.51.100.0", "198.51.100.1"] ∧
    ((buildInventory lab2).toOption.bind
        fun inv => (getConf inv "leaf-1" "eth1").map IntfConf.ipv6)
      = some "2001:db8::1/127" ∧
    ipv6LinkNet 0 = some LINK6BASE ∧
    (hostsV6 LINK6BASE 127).map ipv6Str = ["2001:db8::", "2001:db8::1"] ∧
    ("198.51.100.1/31" : String) ≠ "198.51.100.0/31" := by
  decide

/-- C1 (amended): for every link with exactly two endpoints, the SECOND
usable host address of the allocated v4 and v6 subnets is assigned to the
first endpoint in declared order, and the FIRST usable host address to the
second endpoint (the reverse of the claimed order). -/
theorem C1_reversed (inv : Inventory) (p : Pools) (l : Link)
    (e1 e2 n1 i1 n2 i2 : String) (hv1 hv2 : HostVars) (a4 a6 : Nat)
    (hep : l.endpoints = [e1, e2])
    (hs1 : strSplit e1 ':' = [n1, i1]) (hs2 : strSplit e2 ':' = [n2, i2])
    (hne : n1 ≠ n2)
    (ha4 : ipv4LinkNet p.v4link = some a4) (ha6 : ipv6LinkNet p.v6link = some a6)
    (h6small : p.v6link < 2 ^ 8)
    (hl1 : lookupA inv.hostvars n1 = some hv1) (hl2 : lookupA inv.hostvars n2 = some hv2) :
    ∃ inv2, addLink (inv, p) l
        = Except.ok (inv2, { p with v6link := p.v6link + 1, v4link := p.v4link + 1 }) ∧
      hostsV4 a4 31 = [a4, a4 + 1] ∧ hostsV6 a6 127 = [a6, a6 + 1] ∧
      (getConf inv2 n1 i1).map IntfConf.ipv4 = some (ipv4Str (a4 + 1) ++ "/" ++ natRepr 31) ∧
      (getConf inv2 n1 i1).map IntfConf.ipv6 = some (ipv6Str (a6 + 1) ++ "/" ++ natRepr 127) ∧
      (getConf inv2 n2 i2).map IntfConf.ipv4 = some (ipv4Str a4 ++ "/" ++ natRepr 31) ∧
      (getConf inv2 n2 i2).map IntfConf.ipv6 = some (ipv6Str a6 ++ "/" ++ natRepr 127) := by
  have hg := getConf_after_two inv n1 i1 n2 i2 hv1 hv2 (linkConfFirst a4 a6 n2)
    (linkConfSecond a4 a6 n1) hne
  refine ⟨_, addLink_two inv p l e1 e2 n1 i1 n2 i2 hv1 hv2 a4 a6 hep hs1 hs2 hne ha4 ha6
    h6small hl1 hl2, hostsV4_31 a4, hostsV6_127 a6, ?_, ?_, ?_, ?_⟩
  · rw [hg.1]; rfl
  · rw [hg.1]; rfl
  · rw [hg.2]; rfl
  · rw [hg.2]; rfl

/-- C1 (amended), witness at a concrete two-endpoint link. -/
theorem C1_reversed_witness :
    ∃ inv2, addLink (invFix, initPools) linkFix
        = Except.ok (inv2, (⟨0, 0, 1, 1⟩ : Pools)) ∧
      hostsV4 LINK4BASE1 31 = [LINK4BASE1, LINK4BASE1 + 1] ∧
      hostsV6 LINK6BASE 127 = [LINK6BASE, LINK6BASE + 1] ∧
      (getConf inv2 "a" "eth1").map IntfConf.ipv4
        = some (ipv4Str (LINK4BASE1 + 1) ++ "/" ++ natRepr 31) ∧
      (getConf inv2 "a" "eth1").map IntfConf.ipv6
        = some (ipv6Str (LINK6BASE + 1) ++ "/" ++ natRepr 127) ∧
      (getConf inv2 "b" "eth1").map IntfConf.ipv4
        = some (ipv4Str LINK4BASE1 ++ "/" ++ natRepr 31) ∧
      (getConf inv2 "b" "eth1").map IntfConf.ipv6
        = some (ipv6Str LINK6BASE ++ "/" ++ natRepr 127) :=
  C1_reversed invFix initPools linkFix "a:eth1" "b:eth1" "a" "eth1" "b" "eth1" hvFix hvFix
    LINK4BASE1 LINK6BASE rfl (by decide) (by decide) (by decide) (by decide) (by decide)
    (by decide) (by decide) (by decide)

/-- C2: the general padding-and-slicing formula matches the code, but the
worked example in the claim is wrong: loopback 192.0.2.1 pads to
"192000002001", which slices as 1920 / 0000 / 2001, so the stored legacy
identifier is 49.0001.1920.0000.2001.00, not 49.0001.1920.0002.0001.00.  In
labC2 the second node leaf-2 receives exactly that loopback. -/
theorem C2_counterexample :
    ((buildInventory labC2).toOption.bind
        fun inv => (lookupA inv.hostvars "leaf-2").map
          fun hv => (hv.loopback_ipv4, hv.clns_net))
      = some ("192.0.2.1", "49.0001.1920.0000.2001.00") ∧
    ("49.0001.1920.0000.2001.00" : String) ≠ "49.0001.1920.0002.0001.00" := by
  decide

/-- C2 (amended): for every node of a successfully built inventory, the
stored legacy identifier equals the claimed formula 49.0001. + digits[0:4] +
. + digits[4:8] + . + digits[8:12] + .00 applied to the dotted loopback; the
worked example for 192.0.2.1 is 49.0001.1920.0000.2001.00. -/
theorem C2_formula (lab : Lab) (inv : Inventory)
    (hnodup : (lab.nodes.map NodeDecl.name).Nodup)
    (hok : buildInventory lab = Except.ok inv) (m : Nat) (hm : m < lab.nodes.length) :
    (∃ hv, lookupA inv.hostvars ((lab.nodes.get ⟨m, hm⟩).name) = some hv ∧
      hv.clns_net = clnsNetSpec hv.loopback_ipv4) ∧
    clnsNet "192.0.2.1" = "49.0001.1920.0000.2001.00" ∧
    clnsNetSpec "192.0.2.1" = "49.0001.1920.0000.2001.00" := by
  obtain ⟨hv, hlk, hah, h4, h6c, hcl, hcap⟩ := build_hostvars lab inv hnodup hok m hm
  refine ⟨⟨hv, hlk, ?_⟩, by decide, by decide⟩
  rw [hcl, h4]
  exact clns_eq_spec ⟨m, hcap⟩

/-- C2 (amended), witness on labC2. -/
theorem C2_formula_witness :
    (∃ hv, lookupA (invOf labC2).hostvars ((labC2.nodes.get ⟨1, by decide⟩).name)
        = some hv ∧ hv.clns_net = clnsNetSpec hv.loopback_ipv4) ∧
    clnsNet "192.0.2.1" = "49.0001.1920.0000.2001.00" ∧
    clnsNetSpec "192.0.2.1" = "49.0001.1920.0000.2001.00" :=
  C2_formula labC2 (invOf labC2) (by decide) (by decide) 1 (by decide)

/-- C6: the claim says a node name without a "-" separator makes registration
fail with MalformedNodeName.  False: the code performs no such check; for
labC6 with single node "spine" the build succeeds, and split("-")[0] of a
separator-free name is the whole name, which becomes the type group. -/
theorem C6_counterexample :
    (buildInventory labC6).toOption ≠ none ∧
    ((buildInventory labC6).toOption.bind Inventory.children) = some ["spine"] ∧
    ((buildInventory labC6).toOption.bind
        fun inv => (lookupA inv.groups "spine").map TypeGroup.hosts)
      = some ["spine"] := by
  decide

/-- C6 (amended): no MalformedNodeName check exists.  The inferred type is
split("-")[0] — the whole name when there is no separator — and the name
affects the outcome of registration only through this type: a node whose
type is neither reserved dict key registers under its type group, also when
the name has no separator; a node of type _meta fails its own registration
with the plain KeyError of line 88; and after a node of type all has
replaced the reserved all entry every further registration fails with the
plain KeyError of line 71. -/
theorem C6_no_failure (labName : String) (inv : Inventory) (p : Pools) (nd : NodeDecl)
    (cs : List String) (hch : inv.children = some cs) (hWF : InvWF inv)
    (h4 : p.v4loop < 2 ^ 8) (h6 : p.v6loop < 2 ^ 95) :
    (typeOf nd.name ≠ "_meta" →
      ∃ st2, addNode labName (inv, p) nd = Except.ok st2 ∧
        ∃ g, lookupA st2.1.groups (typeOf nd.name) = some g ∧ nd.name ∈ g.hosts) ∧
    (typeOf nd.name = "_meta" → ¬"_meta" ∈ cs →
      addNode labName (inv, p) nd = Except.error Err.keyError) ∧
    (typeOf nd.name = "all" → ¬"all" ∈ cs →
      ∃ st2, addNode labName (inv, p) nd = Except.ok st2 ∧ st2.1.children = none) ∧
    (∀ (inv0 : Inventory) (nd0 : NodeDecl), inv0.children = none →
      addNode labName (inv0, p) nd0 = Except.error Err.keyError) ∧
    typeOf nd.name = (strSplit nd.name '-').headD "" ∧
    typeOf "spine" = "spine" := by
  have hWFs := InvWF_some hch hWF
  refine ⟨?_, ?_, ?_, fun inv0 nd0 hch0 => addNode_children_none labName inv0 p nd0 hch0,
    rfl, by decide⟩
  · intro hm
    refine ⟨addNodeResult labName inv p nd,
      addNode_ok labName inv p nd cs hch (fun hmem => (hWFs _).mp hmem) hm h4 h6, ?_⟩
    by_cases hmem : typeOf nd.name ∈ cs
    · obtain ⟨g0, hg0⟩ := Option.isSome_iff_exists.mp ((hWFs _).mp hmem)
      have hg0x : lookupA inv.groups (typeOf nd.name) = some g0 := hg0
      rw [addNodeResult_groups_mem labName inv p nd g0 cs hch hmem hg0x]
      exact ⟨_, lookupA_updateA_self _ _ _, by simp⟩
    · have hg : lookupA inv.groups (typeOf nd.name) = none := by
        cases hl : lookupA inv.groups (typeOf nd.name) with
        | none => rfl
        | some g => exact absurd ((hWFs _).mpr (by simp [hl])) hmem
      rw [addNodeResult_groups_new labName inv p nd cs hch hmem hg]
      exact ⟨_, lookupA_append_new_self _ _ _ hg, by simp⟩
  · intro hm hnm
    have hmem : ¬typeOf nd.name ∈ cs := by rw [hm]; exact hnm
    have hallne : typeOf nd.name ≠ "all" := by rw [hm]; decide
    have h4n : p.v4loop < 256 := by norm_num at h4; exact h4
    have h6n : p.v6loop < 39614081257132168796771975168 := by norm_num at h6; exact h6
    simp [addNode, nextPool, ipv6LoopNet, ipv4LoopNet, hch, hnm, hallne, hm,
      lookupA_updateA_self, h4n, h6n, Bind.bind, Except.bind]
  · intro hall hnm
    have hmem : ¬typeOf nd.name ∈ cs := by rw [hall]; exact hnm
    have hm : typeOf nd.name ≠ "_meta" := by rw [hall]; decide
    exact ⟨addNodeResult labName inv p nd,
      addNode_ok labName inv p nd cs hch (fun hmem2 => absurd hmem2 hmem) hm h4 h6,
      addNodeResult_children_all labName inv p nd cs hch hall hmem⟩

/-- C6 (amended), witness: a separator-free node name registers fine under
its whole name as type, while a node of the reserved type _meta fails with
the KeyError and a destroyed children list fails every registration. -/
theorem C6_no_failure_witness :
    (typeOf "spine" ≠ "_meta" →
      ∃ st2, addNode "demo" (⟨some [], [], []⟩, initPools) ⟨"spine", "ceos"⟩
          = Except.ok st2 ∧
        ∃ g, lookupA st2.1.groups (typeOf "spine") = some g ∧ "spine" ∈ g.hosts) ∧
    (typeOf "spine" = "_meta" → ¬"_meta" ∈ ([] : List String) →
      addNode "demo" (⟨some [], [], []⟩, initPools) ⟨"spine", "ceos"⟩
        = Except.error Err.keyError) ∧
    (typeOf "spine" = "all" → ¬"all" ∈ ([] : List String) →
      ∃ st2, addNode "demo" (⟨some [], [], []⟩, initPools) ⟨"spine", "ceos"⟩
          = Except.ok st2 ∧ st2.1.children = none) ∧
    (∀ (inv0 : Inventory) (nd0 : NodeDecl), inv0.children = none →
      addNode "demo" (inv0, initPools) nd0 = Except.error Err.keyError) ∧
    typeOf "spine" = (strSplit "spine" '-').headD "" ∧
    typeOf "spine" = "spine" :=
  C6_no_failure "demo" ⟨some [], [], []⟩ initPools ⟨"spine", "ceos"⟩ []
    rfl (by intro t; simp [lookupA]) (by decide) (by decide)

/-- C7: the claim says a link without exactly two endpoints fails fast with
UnsupportedLinkArity.  False: there is no arity check at all; a link with
zero endpoints is processed without any error (labC7a builds fine, while
still consuming one subnet of each family). -/
theorem C7_counterexample :
    (buildInventory labC7a).toOption ≠ none ∧
    ((buildInventory labC7a).toOption.bind
        fun inv => (lookupA inv.hostvars "leaf-1").map fun hv => hv.interfaces)
      = some [] := by
  decide

/-- C7 (amended): no arity check exists.  A zero-endpoint link is silently
accepted and still consumes one v4 and one v6 link subnet; links with one or
with three endpoints abort the build with a generic index error (from the
neighbor lookup, resp. the third host-address pop), not a dedicated arity
failure. -/
theorem C7_arity :
    (∀ (inv : Inventory) (p : Pools), p.v4link < 2 ^ 8 → p.v6link < 2 ^ 94 →
      addLink (inv, p) ⟨([] : List String)⟩
        = Except.ok (inv, { p with v6link := p.v6link + 1, v4link := p.v4link + 1 })) ∧
    buildInventory labC7b = Except.error Err.indexError ∧
    buildInventory labC7c = Except.error Err.indexError := by
  refine ⟨?_, by decide, by decide⟩
  intro inv p h4 h6
  obtain ⟨a4, ha4⟩ := ipv4LinkNet_isSome h4
  obtain ⟨a6, ha6⟩ := ipv6LinkNet_isSome h6
  unfold addLink
  dsimp only
  rw [nextPool_ok ha4, nextPool_ok ha6]
  simp [Bind.bind, Except.bind, linkLoop]

/-- C7 (amended), witness for the zero-endpoint conjunct. -/
theorem C7_arity_witness :
    addLink (invFix, initPools) ⟨([] : List String)⟩
      = Except.ok (invFix, (⟨0, 0, 1, 1⟩ : Pools)) :=
  C7_arity.1 invFix initPools (by decide) (by decide)


/-- Folding over an appended list splits as sequenced folds. -/
theorem foldlM_append_eq {σ α : Type} (f : σ → α → Except Err σ) :
    ∀ (l1 l2 : List α) (st : σ),
      (l1 ++ l2).foldlM f st = (l1.foldlM f st >>= fun mid => l2.foldlM f mid) := by
  intro l1
  induction l1 with
  | nil =>
    intro l2 st
    simp [Bind.bind, Except.bind, Pure.pure, Except.pure]
  | cons x xs ih =>
    intro l2 st
    rw [List.cons_append, List.foldlM_cons, List.foldlM_cons]
    cases hx : f st x with
    | error e => simp [Bind.bind, Except.bind]
    | ok st1 => simp [Bind.bind, Except.bind, ih]

/-- C8: a link endpoint that names an unregistered node makes link processing
fail with the unknown-node failure (the KeyError at the hostvars access,
line 144), whether the bad endpoint comes first or second, and that failure
value is distinct from every other failure of the pipeline. -/
theorem C8_unknown_endpoint (inv : Inventory) (p : Pools) (l : Link)
    (e1 e2 n1 i1 n2 i2 : String)
    (hep : l.endpoints = [e1, e2])
    (hs1 : strSplit e1 ':' = [n1, i1]) (hs2 : strSplit e2 ':' = [n2, i2])
    (hc4 : p.v4link < 2 ^ 8) (hc6 : p.v6link < 2 ^ 8) :
    (lookupA inv.hostvars n1 = none →
      addLink (inv, p) l = Except.error Err.unknownEndpointNode) ∧
    (∀ hv1, lookupA inv.hostvars n1 = some hv1 → lookupA inv.hostvars n2 = none →
      n1 ≠ n2 → addLink (inv, p) l = Except.error Err.unknownEndpointNode) ∧
    Err.unknownEndpointNode ≠ Err.poolExhausted ∧
    Err.unknownEndpointNode ≠ Err.indexError ∧
    Err.unknownEndpointNode ≠ Err.valueError := by
  obtain ⟨a4, ha4⟩ := ipv4LinkNet_isSome hc4
  obtain ⟨a6, ha6⟩ := @ipv6LinkNet_isSome p.v6link (by omega)
  obtain ⟨hne4, hev4⟩ := link4Str_ne ha4
  obtain ⟨hne6, hev6⟩ := link6Str_ne hc6 ha6
  have hmask4 := maskNet_31_even hev4
  have hmask6 := maskNet_127_even hev6
  have herase1 : ([e1, e2] : List String).erase e1 = [e2] := by
    rw [List.erase_cons_head]
  have hf4a : ((hostsV4 (maskNet 32 31 (a4 + 1)) 31).map ipv4Str).filter
      (fun h => h ≠ ipv4Str (a4 + 1)) = ipv4Str a4 :: [] := by
    rw [hmask4.2, hostsV4_31]
    simp only [List.map]
    exact filter_pair_fst hne4
  have hf4b : ((hostsV4 (maskNet 32 31 a4) 31).map ipv4Str).filter
      (fun h => h ≠ ipv4Str a4) = ipv4Str (a4 + 1) :: [] := by
    rw [hmask4.1, hostsV4_31]
    simp only [List.map]
    exact filter_pair_snd hne4
  have hf6a : ((hostsV6 (maskNet 128 127 (a6 + 1)) 127).map ipv6Str).filter
      (fun h => h ≠ ipv6Str (a6 + 1)) = ipv6Str a6 :: [] := by
    rw [hmask6.2, hostsV6_127]
    simp only [List.map]
    exact filter_pair_fst hne6
  have hf6b : ((hostsV6 (maskNet 128 127 a6) 127).map ipv6Str).filter
      (fun h => h ≠ ipv6Str a6) = ipv6Str (a6 + 1) :: [] := by
    rw [hmask6.1, hostsV6_127]
    simp only [List.map]
    exact filter_pair_snd hne6
  refine ⟨?_, ?_, by decide, by decide, by decide⟩
  · intro hunk
    have hpe1 := processEndpoint_unknown [e1, e2] 31 127 inv [a4, a4 + 1] [a6, a6 + 1] e1
      n1 i1 e2 [] (a4 + 1) (a6 + 1) (ipv4Str a4) (ipv6Str a6) [] [] hs1 herase1 rfl rfl
      hf4a hf6a hunk
    unfold addLink
    rw [hep]
    dsimp only
    rw [nextPool_ok ha4, nextPool_ok ha6]
    simp only [Bind.bind, Except.bind, hostsV4_31, hostsV6_127]
    unfold linkLoop
    rw [hpe1]
    simp [Bind.bind, Except.bind]
  · intro hv1 hl1 hunk2 hne
    have he12 : e1 ≠ e2 := endpoints_ne hs1 hs2 hne
    have herase2 : ([e1, e2] : List String).erase e2 = [e1] := by
      rw [List.erase_cons]
      rw [if_neg (by simpa using he12)]
      rw [List.erase_cons_head]
    have hpe1 := processEndpoint_spec [e1, e2] 31 127 inv [a4, a4 + 1] [a6, a6 + 1] e1
      n1 i1 e2 [] hv1 (a4 + 1) (a6 + 1) (ipv4Str a4) (ipv6Str a6) [] [] hs1 herase1 rfl rfl
      hf4a hf6a hl1
    rw [hs2] at hpe1
    simp only [List.headD, List.dropLast] at hpe1
    set confA := (⟨ipv4Str (a4 + 1) ++ "/" ++ natRepr 31, ipv6Str (a6 + 1) ++ "/" ++ natRepr 127, n2, ipv4Str a4, ipv6Str a6⟩ : IntfConf) with hCA
    set hvA := ({ hv1 with interfaces := updateA hv1.interfaces i1 confA } : HostVars) with hA
    set invA := ({ inv with hostvars := updateA inv.hostvars n1 hvA } : Inventory) with hIA
    have hpe1x : processEndpoint [e1, e2] 31 127 inv [a4, a4 + 1] [a6, a6 + 1] e1
        = Except.ok (invA, [a4], [a6]) := by
      rw [hpe1, hIA, hA, hCA]
    have hlkA : lookupA invA.hostvars n2 = none := by
      rw [hIA]
      show lookupA (updateA inv.hostvars n1 hvA) n2 = none
      rw [lookupA_updateA_ne _ _ hne]
      exact hunk2
    have hpe2 := processEndpoint_unknown [e1, e2] 31 127 invA [a4] [a6] e2
      n2 i2 e1 [] a4 a6 (ipv4Str (a4 + 1)) (ipv6Str (a6 + 1)) [] [] hs2 herase2 rfl rfl
      hf4b hf6b hlkA
    unfold addLink
    rw [hep]
    dsimp only
    rw [nextPool_ok ha4, nextPool_ok ha6]
    simp only [Bind.bind, Except.bind, hostsV4_31, hostsV6_127]
    unfold linkLoop
    rw [hpe1x]
    simp only [Bind.bind, Except.bind]
    unfold linkLoop
    rw [hpe2]
    simp [Bind.bind, Except.bind]

/-- C8, witness: a link whose first endpoint names the unregistered node c
fails with the unknown-node failure. -/
theorem C8_unknown_endpoint_witness :
    addLink (invFixA, initPools) linkC8 = Except.error Err.unknownEndpointNode :=
  (C8_unknown_endpoint invFixA initPools linkC8 "c:eth1" "a:eth1" "c" "eth1" "a" "eth1"
    rfl (by decide) (by decide) (by decide) (by decide)).1 (by decide)

/-- C5: the claim says registering up to 256 nodes always succeeds and a
257th always fails with pool exhaustion.  False as stated: a lab with one
single node of the reserved inferred type _meta fails registration with a
KeyError (line 73 rebinds the reserved _meta entry, line 88 then fails),
although only one of the 256 loopback /32s would be needed. -/
theorem C5_counterexample :
    labMeta.nodes.length ≤ 2 ^ 8 ∧
    addLabNodes labMeta (initInventory, initPools) = Except.error Err.keyError ∧
    Err.keyError ≠ Err.poolExhausted := by
  decide

/-- C5 (amended): for labs whose inferred node types avoid the reserved
dict keys all and _meta, the claimed pool arithmetic holds: the loopback
pools are carved one /32 (v4) and one /128 (v6) per node; the v4 pool holds
exactly 256 subnets from 192.0.2.0/24; registering up to 256 nodes
succeeds; with a 257th node the run fails with pool exhaustion, raised by
the v4 loopback allocation of that node (its v6 allocation, done first,
still succeeds since the v6 pool holds 2^95 subnets). -/
theorem C5_exhaustion :
    (∀ lab : Lab,
      (∀ nd, nd ∈ lab.nodes → typeOf nd.name ≠ "all" ∧ typeOf nd.name ≠ "_meta") →
      lab.nodes.length ≤ 2 ^ 8 →
      ∃ st, addLabNodes lab (initInventory, initPools) = Except.ok st) ∧
    (∀ lab : Lab,
      (∀ nd, nd ∈ lab.nodes → typeOf nd.name ≠ "all" ∧ typeOf nd.name ≠ "_meta") →
      lab.nodes.length = 2 ^ 8 + 1 →
      addLabNodes lab (initInventory, initPools) = Except.error Err.poolExhausted) ∧
    (∀ (labName : String) (inv : Inventory) (p : Pools) (nd : NodeDecl)
      (cs : List String), inv.children = some cs →
      (typeOf nd.name ∈ cs → (lookupA inv.groups (typeOf nd.name)).isSome) →
      p.v4loop = 2 ^ 8 → p.v6loop = 2 ^ 8 →
      addNode labName (inv, p) nd = Except.error Err.poolExhausted) ∧
    ipv4LoopNet (2 ^ 8) = none ∧ ipv6LoopNet (2 ^ 8) = some (LOOP6BASE + 2 ^ 8) := by
  have h95 : (2 : Nat) ^ 8 + 1 ≤ 2 ^ 95 := by norm_num
  have hWF0 : InvWF initInventory := by
    intro t
    simp [initInventory, lookupA]
  refine ⟨?_, ?_, ?_, by decide, by decide⟩
  · intro lab hres hlen
    obtain ⟨inv2, p2, hfold, _⟩ := nodesFold_ok lab.name lab.nodes initInventory initPools
      [] rfl hWF0 hres
      (show 0 + lab.nodes.length ≤ 2 ^ 8 by omega)
      (show 0 + lab.nodes.length ≤ 2 ^ 95 by omega)
    exact ⟨(inv2, p2), hfold⟩
  · intro lab hres hlen
    have htake : (lab.nodes.take (2 ^ 8)).length = 2 ^ 8 := by
      rw [List.length_take]
      omega
    have hrest : ∀ nd, nd ∈ lab.nodes.take (2 ^ 8) →
        typeOf nd.name ≠ "all" ∧ typeOf nd.name ≠ "_meta" := by
      intro nd hnd
      refine hres nd ?_
      rw [← List.take_append_drop (2 ^ 8) lab.nodes]
      exact List.mem_append_left _ hnd
    obtain ⟨inv2, p2, hfold, hp6, hp4, _, _⟩ := nodesFold_ok lab.name
      (lab.nodes.take (2 ^ 8)) initInventory initPools [] rfl hWF0 hrest
      (show 0 + (lab.nodes.take (2 ^ 8)).length ≤ 2 ^ 8 by omega)
      (show 0 + (lab.nodes.take (2 ^ 8)).length ≤ 2 ^ 95 by omega)
    have hch2 := nodesFold_children lab.name (lab.nodes.take (2 ^ 8)) initInventory
      initPools inv2 p2 [] hfold rfl (fun nd hnd => (hrest nd hnd).1)
    have hWF2 := nodesFold_WF lab.name (lab.nodes.take (2 ^ 8)) initInventory
      initPools inv2 p2 [] hfold rfl (fun nd hnd => (hrest nd hnd).1) hWF0
    have hdlen : (lab.nodes.drop (2 ^ 8)).length = 1 := by
      rw [List.length_drop]
      omega
    cases hdrop : lab.nodes.drop (2 ^ 8) with
    | nil => rw [hdrop] at hdlen; simp at hdlen
    | cons nd rest =>
      show lab.nodes.foldlM (addNode lab.name) (initInventory, initPools)
        = Except.error Err.poolExhausted
      rw [show lab.nodes = lab.nodes.take (2 ^ 8) ++ (nd :: rest) from by
        rw [← hdrop]
        exact (List.take_append_drop _ _).symm]
      rw [foldlM_append_eq, hfold]
      simp only [Bind.bind, Except.bind]
      rw [List.foldlM_cons]
      have herr := addNode_v4_exhausted lab.name inv2 p2 nd _ hch2
        (fun hmem => (InvWF_some hch2 hWF2 _).mp hmem)
        (by rw [hp4, htake]; simp [initPools]) (by rw [hp6, htake]; simp [initPools])
      rw [herr]
      simp [Bind.bind, Except.bind]
  · intro labName inv p nd cs hch hlk h4 h6
    exact addNode_v4_exhausted labName inv p nd cs hch hlk (by omega)
      (by rw [h6]; norm_num)

/-- C5 (amended), witness: one ordinary node succeeds; 257 ordinary nodes
exhaust the v4 loopback pool; at cursors 256/256 a further registration
fails. -/
theorem C5_exhaustion_witness :
    (∃ st, addLabNodes lab1 (initInventory, initPools) = Except.ok st) ∧
    addLabNodes lab257 (initInventory, initPools) = Except.error Err.poolExhausted ∧
    addNode "demo" (invFix, (⟨2 ^ 8, 2 ^ 8, 0, 0⟩ : Pools)) ⟨"a-b", "ceos"⟩
      = Except.error Err.poolExhausted :=
  ⟨C5_exhaustion.1 lab1 (by decide) (by decide),
   C5_exhaustion.2.1 lab257 (by decide) (by decide),
   C5_exhaustion.2.2.1 "demo" invFix ⟨2 ^ 8, 2 ^ 8, 0, 0⟩ ⟨"a-b", "ceos"⟩ []
     rfl (by decide) rfl rfl⟩

/-- C10: the k-th declared node (0-indexed m = k-1) receives loopback-v4
192.0.2.m; the first allocated /32 is 192.0.2.0/32, whose address is the
network address of the parent 192.0.2.0/24 block, handed out as a host
address rather than skipped. -/
theorem C10_loopback_order (lab : Lab) (inv : Inventory)
    (hnodup : (lab.nodes.map NodeDecl.name).Nodup)
    (hok : buildInventory lab = Except.ok inv) (m : Nat) (hm : m < lab.nodes.length) :
    (∃ hv, lookupA inv.hostvars ((lab.nodes.get ⟨m, hm⟩).name) = some hv ∧
      hv.loopback_ipv4 = "192.0.2." ++ natRepr m) ∧
    ipv4LoopNet 0 = some LOOP4BASE ∧ ipv4Str LOOP4BASE = "192.0.2.0" ∧
    maskNet 32 24 LOOP4BASE = LOOP4BASE := by
  obtain ⟨hv, hlk, hah, h4, h6c, hcl, hcap⟩ := build_hostvars lab inv hnodup hok m hm
  refine ⟨⟨hv, hlk, ?_⟩, by decide, by decide, by decide⟩
  rw [h4]
  exact ipv4Str_loop4 m hcap

/-- C10, witness on labC2: the first node gets 192.0.2.0. -/
theorem C10_loopback_order_witness :
    (∃ hv, lookupA (invOf labC2).hostvars ((labC2.nodes.get ⟨0, by decide⟩).name)
        = some hv ∧ hv.loopback_ipv4 = "192.0.2." ++ natRepr 0) ∧
    ipv4LoopNet 0 = some LOOP4BASE ∧ ipv4Str LOOP4BASE = "192.0.2.0" ∧
    maskNet 32 24 LOOP4BASE = LOOP4BASE :=
  C10_loopback_order labC2 (invOf labC2) (by decide) (by decide) 0 (by decide)

/-- C3: for a processed two-endpoint link, each stored InterfaceConfig names
the other endpoint node as neighbor and carries the other endpoint address
as neighbor address for both families; the two own addresses are the two
distinct usable hosts of the one allocated subnet per family, stored with
that subnet prefix length (/31 and /127). -/
theorem C3_neighbor_symmetry (inv : Inventory) (p : Pools) (l : Link)
    (e1 e2 n1 i1 n2 i2 : String) (hv1 hv2 : HostVars) (a4 a6 : Nat)
    (hep : l.endpoints = [e1, e2])
    (hs1 : strSplit e1 ':' = [n1, i1]) (hs2 : strSplit e2 ':' = [n2, i2])
    (hne : n1 ≠ n2)
    (ha4 : ipv4LinkNet p.v4link = some a4) (ha6 : ipv6LinkNet p.v6link = some a6)
    (h6small : p.v6link < 2 ^ 8)
    (hl1 : lookupA inv.hostvars n1 = some hv1) (hl2 : lookupA inv.hostvars n2 = some hv2) :
    ∃ inv2 c1 c2, addLink (inv, p) l
        = Except.ok (inv2, { p with v6link := p.v6link + 1, v4link := p.v4link + 1 }) ∧
      getConf inv2 n1 i1 = some c1 ∧ getConf inv2 n2 i2 = some c2 ∧
      c1.neighbor = n2 ∧ c2.neighbor = n1 ∧
      c1.ipv4 = ipv4Str (a4 + 1) ++ "/" ++ natRepr 31 ∧
      c2.ipv4 = ipv4Str a4 ++ "/" ++ natRepr 31 ∧
      c1.ipv4_neighbor = ipv4Str a4 ∧ c2.ipv4_neighbor = ipv4Str (a4 + 1) ∧
      c1.ipv6 = ipv6Str (a6 + 1) ++ "/" ++ natRepr 127 ∧
      c2.ipv6 = ipv6Str a6 ++ "/" ++ natRepr 127 ∧
      c1.ipv6_neighbor = ipv6Str a6 ∧ c2.ipv6_neighbor = ipv6Str (a6 + 1) ∧
      hostsV4 a4 31 = [a4, a4 + 1] ∧ ipv4Str a4 ≠ ipv4Str (a4 + 1) ∧
      hostsV6 a6 127 = [a6, a6 + 1] ∧ ipv6Str a6 ≠ ipv6Str (a6 + 1) := by
  have hg := getConf_after_two inv n1 i1 n2 i2 hv1 hv2 (linkConfFirst a4 a6 n2)
    (linkConfSecond a4 a6 n1) hne
  obtain ⟨hne4, _⟩ := link4Str_ne ha4
  obtain ⟨hne6, _⟩ := link6Str_ne h6small ha6
  exact ⟨_, linkConfFirst a4 a6 n2, linkConfSecond a4 a6 n1,
    addLink_two inv p l e1 e2 n1 i1 n2 i2 hv1 hv2 a4 a6 hep hs1 hs2 hne ha4 ha6 h6small
      hl1 hl2,
    hg.1, hg.2, rfl, rfl, rfl, rfl, rfl, rfl, rfl, rfl, rfl, rfl,
    hostsV4_31 a4, hne4, hostsV6_127 a6, hne6⟩

/-- C3, witness at a concrete two-endpoint link. -/
theorem C3_neighbor_symmetry_witness :
    ∃ inv2 c1 c2, addLink (invFix, initPools) linkFix
        = Except.ok (inv2, (⟨0, 0, 1, 1⟩ : Pools)) ∧
      getConf inv2 "a" "eth1" = some c1 ∧ getConf inv2 "b" "eth1" = some c2 ∧
      c1.neighbor = "b" ∧ c2.neighbor = "a" ∧
      c1.ipv4 = ipv4Str (LINK4BASE1 + 1) ++ "/" ++ natRepr 31 ∧
      c2.ipv4 = ipv4Str LINK4BASE1 ++ "/" ++ natRepr 31 ∧
      c1.ipv4_neighbor = ipv4Str LINK4BASE1 ∧
      c2.ipv4_neighbor = ipv4Str (LINK4BASE1 + 1) ∧
      c1.ipv6 = ipv6Str (LINK6BASE + 1) ++ "/" ++ natRepr 127 ∧
      c2.ipv6 = ipv6Str LINK6BASE ++ "/" ++ natRepr 127 ∧
      c1.ipv6_neighbor = ipv6Str LINK6BASE ∧
      c2.ipv6_neighbor = ipv6Str (LINK6BASE + 1) ∧
      hostsV4 LINK4BASE1 31 = [LINK4BASE1, LINK4BASE1 + 1] ∧
      ipv4Str LINK4BASE1 ≠ ipv4Str (LINK4BASE1 + 1) ∧
      hostsV6 LINK6BASE 127 = [LINK6BASE, LINK6BASE + 1] ∧
      ipv6Str LINK6BASE ≠ ipv6Str (LINK6BASE + 1) :=
  C3_neighbor_symmetry invFix initPools linkFix "a:eth1" "b:eth1" "a" "eth1" "b" "eth1"
    hvFix hvFix LINK4BASE1 LINK6BASE rfl (by decide) (by decide) (by decide) (by decide)
    (by decide) (by decide) (by decide) (by decide)


/-- C9: each node joins exactly the TypeGroup named by its name prefix
before the first "-"; a group is created on first occurrence and carries the
kind-derived variables of its first member.  On leaf-1, leaf-2, spine-1 this
yields exactly the two groups leaf (two members) and spine (one member).
The children list enumerates each distinct type once in first-appearance
order as long as no inferred type is the reserved key all (a type group
named all replaces the reserved entry at line 73 and the list is gone). -/
theorem C9_grouping (lab : Lab) (inv : Inventory)
    (hnodup : (lab.nodes.map NodeDecl.name).Nodup)
    (hok : buildInventory lab = Except.ok inv) :
    ((∀ nd, nd ∈ lab.nodes → typeOf nd.name ≠ "all") →
      inv.children = some (childrenAfter [] (lab.nodes.map fun nd => typeOf nd.name)) ∧
      (childrenAfter [] (lab.nodes.map fun nd => typeOf nd.name)).Nodup ∧
      (∀ t, t ∈ childrenAfter [] (lab.nodes.map fun nd => typeOf nd.name) ↔
        t ∈ lab.nodes.map fun nd => typeOf nd.name)) ∧
    (∀ t g, lookupA inv.groups t = some g →
      g.hosts = hostsOfType lab.nodes t ∧
      ∃ nd0, firstOfType lab.nodes t = some nd0 ∧ g.vars = kindVars nd0.kind) ∧
    (∀ nd, nd ∈ lab.nodes → ∀ t g, lookupA inv.groups t = some g →
      (nd.name ∈ g.hosts ↔ t = typeOf nd.name)) ∧
    (invOf labC9).children = some ["leaf", "spine"] ∧
    ((lookupA (invOf labC9).groups "leaf").map TypeGroup.hosts)
      = some ["leaf-1", "leaf-2"] ∧
    ((lookupA (invOf labC9).groups "spine").map TypeGroup.hosts) = some ["spine-1"] ∧
    (invOf labC9).groups.length = 2 := by
  obtain ⟨invN, pN, pL, hN, hL⟩ := buildInventory_ok_inv lab inv hok
  have hWF0 : InvWF initInventory := by
    intro t
    simp [initInventory, lookupA]
  have hgrp := nodesFold_groups lab.name lab.nodes initInventory initPools invN pN []
    hN rfl hWF0
  obtain ⟨_, _, hcL, hgL, _, _⟩ := linksFold_ok_inv lab.links invN pN inv pL hL
  have hgroups : ∀ t g, lookupA inv.groups t = some g →
      g.hosts = hostsOfType lab.nodes t ∧
      ∃ nd0, firstOfType lab.nodes t = some nd0 ∧ g.vars = kindVars nd0.kind := by
    intro t g hg2
    rw [hgL] at hg2
    have h3 := hgrp t
    rw [show lookupA initInventory.groups t = none from rfl] at h3
    rw [hg2] at h3
    cases hft : firstOfType lab.nodes t with
    | none =>
      rw [hft] at h3
      simp at h3
    | some nd0 =>
      rw [hft] at h3
      simp only at h3
      injection h3 with h4
      refine ⟨by rw [h4], nd0, rfl, by rw [h4]⟩
  refine ⟨?_, hgroups, ?_, by decide, by decide, by decide, by decide⟩
  · intro hall
    have hch := nodesFold_children lab.name lab.nodes initInventory initPools invN pN []
      hN rfl hall
    refine ⟨by rw [hcL, hch], childrenAfter_nodup _ [] (by simp), ?_⟩
    intro t
    rw [mem_childrenAfter]
    simp
  · intro nd hnd t g hg2
    rw [(hgroups t g hg2).1]
    exact mem_hostsOfType hnodup hnd t

/-- C9, witness on labC9. -/
theorem C9_grouping_witness :
    ((∀ nd, nd ∈ labC9.nodes → typeOf nd.name ≠ "all") →
      (invOf labC9).children
          = some (childrenAfter [] (labC9.nodes.map fun nd => typeOf nd.name)) ∧
      (childrenAfter [] (labC9.nodes.map fun nd => typeOf nd.name)).Nodup ∧
      (∀ t, t ∈ childrenAfter [] (labC9.nodes.map fun nd => typeOf nd.name) ↔
        t ∈ labC9.nodes.map fun nd => typeOf nd.name)) ∧
    (∀ t g, lookupA (invOf labC9).groups t = some g →
      g.hosts = hostsOfType labC9.nodes t ∧
      ∃ nd0, firstOfType labC9.nodes t = some nd0 ∧ g.vars = kindVars nd0.kind) ∧
    (∀ nd, nd ∈ labC9.nodes → ∀ t g, lookupA (invOf labC9).groups t = some g →
      (nd.name ∈ g.hosts ↔ t = typeOf nd.name)) ∧
    (invOf labC9).children = some ["leaf", "spine"] ∧
    ((lookupA (invOf labC9).groups "leaf").map TypeGroup.hosts)
      = some ["leaf-1", "leaf-2"] ∧
    ((lookupA (invOf labC9).groups "spine").map TypeGroup.hosts) = some ["spine-1"] ∧
    (invOf labC9).groups.length = 2 :=
  C9_grouping labC9 (invOf labC9) (by decide) (by decide)

/-- C4: loopback addresses of both families are pairwise distinct across a
successfully built inventory; for every processed link the two endpoint
addresses of each family are the two distinct usable hosts of the one subnet
allocated to that link. -/
theorem C4_uniqueness (lab : Lab) (inv : Inventory)
    (hnodup : (lab.nodes.map NodeDecl.name).Nodup)
    (hok : buildInventory lab = Except.ok inv) :
    (∀ m1 m2 (h1 : m1 < lab.nodes.length) (h2 : m2 < lab.nodes.length), m1 ≠ m2 →
      ∃ hv1 hv2, lookupA inv.hostvars ((lab.nodes.get ⟨m1, h1⟩).name) = some hv1 ∧
        lookupA inv.hostvars ((lab.nodes.get ⟨m2, h2⟩).name) = some hv2 ∧
        hv1.loopback_ipv4 ≠ hv2.loopback_ipv4 ∧
        hv1.loopback_ipv6 ≠ hv2.loopback_ipv6) ∧
    (∀ (pre : List Link) (l : Link) (rest : List Link),
      lab.links = pre ++ l :: rest →
      ∀ e1 e2 n1 i1 n2 i2, l.endpoints = [e1, e2] →
        strSplit e1 ':' = [n1, i1] → strSplit e2 ':' = [n2, i2] → n1 ≠ n2 →
        ∃ invN pN invPre pPre inv2 p2 a4 a6,
          addLabNodes lab (initInventory, initPools) = Except.ok (invN, pN) ∧
          pre.foldlM addLink (invN, pN) = Except.ok (invPre, pPre) ∧
          ipv4LinkNet pPre.v4link = some a4 ∧ ipv6LinkNet pPre.v6link = some a6 ∧
          addLink (invPre, pPre) l = Except.ok (inv2, p2) ∧
          (getConf inv2 n1 i1).map IntfConf.ipv4
            = some (ipv4Str (a4 + 1) ++ "/" ++ natRepr 31) ∧
          (getConf inv2 n2 i2).map IntfConf.ipv4
            = some (ipv4Str a4 ++ "/" ++ natRepr 31) ∧
          ipv4Str a4 ≠ ipv4Str (a4 + 1) ∧ hostsV4 a4 31 = [a4, a4 + 1] ∧
          (getConf inv2 n1 i1).map IntfConf.ipv6
            = some (ipv6Str (a6 + 1) ++ "/" ++ natRepr 127) ∧
          (getConf inv2 n2 i2).map IntfConf.ipv6
            = some (ipv6Str a6 ++ "/" ++ natRepr 127) ∧
          ipv6Str a6 ≠ ipv6Str (a6 + 1) ∧ hostsV6 a6 127 = [a6, a6 + 1]) := by
  constructor
  · intro m1 m2 h1 h2 hne12
    obtain ⟨hv1, hlk1, _, h41, h61, _, hcap1⟩ := build_hostvars lab inv hnodup hok m1 h1
    obtain ⟨hv2, hlk2, _, h42, h62, _, hcap2⟩ := build_hostvars lab inv hnodup hok m2 h2
    refine ⟨hv1, hv2, hlk1, hlk2, ?_, ?_⟩
    · rw [h41, h42]
      exact loop4Str_inj hcap1 hcap2 hne12
    · rw [h61, h62]
      exact loop6Str_inj (by omega) (by omega) hne12
  · intro pre l rest hsplit e1 e2 n1 i1 n2 i2 hep hs1 hs2 hne
    obtain ⟨invN, pN, pL, hN, hL⟩ := buildInventory_ok_inv lab inv hok
    rw [hsplit] at hL
    obtain ⟨midSt, hpre, hrest2⟩ := foldlM_ok_append addLink pre (l :: rest) (invN, pN) hL
    obtain ⟨st2, hlink, hrest3⟩ := foldlM_ok_cons addLink l rest midSt hrest2
    obtain ⟨_, _, hl6N, hl4N, _⟩ := nodesFold_ok_inv lab.name lab.nodes initInventory
      initPools invN pN hN
    have hpre2 : pre.foldlM addLink (invN, pN) = Except.ok (midSt.1, midSt.2) := by
      rw [← show midSt = (midSt.1, midSt.2) from rfl]
      exact hpre
    obtain ⟨hp4M, hp6M, _, _, _, _⟩ := linksFold_ok_inv pre invN pN midSt.1 midSt.2 hpre2
    have hlink2 : addLink (midSt.1, midSt.2) l = Except.ok (st2.1, st2.2) := by
      rw [← show midSt = (midSt.1, midSt.2) from rfl,
        ← show st2 = (st2.1, st2.2) from rfl]
      exact hlink
    obtain ⟨hv1, hv2, a4, a6, hlkv1, hlkv2, ha4, ha6, hlt4⟩ := addLink_ok_two_inv
      midSt.1 midSt.2 l st2.1 st2.2 e1 e2 n1 i1 n2 i2 hep hs1 hs2 hne hlink2
    have hlock : midSt.2.v6link = midSt.2.v4link := by
      rw [hp4M, hp6M, hl6N, hl4N]
      rfl
    have h6small : midSt.2.v6link < 2 ^ 8 := by
      rw [hlock]
      exact hlt4
    have hexp := addLink_two midSt.1 midSt.2 l e1 e2 n1 i1 n2 i2 hv1 hv2 a4 a6 hep hs1 hs2
      hne ha4 ha6 h6small hlkv1 hlkv2
    rw [hlink2] at hexp
    injection hexp with hexp2
    injection hexp2 with hinv2 hp2
    have hg := getConf_after_two midSt.1 n1 i1 n2 i2 hv1 hv2 (linkConfFirst a4 a6 n2)
      (linkConfSecond a4 a6 n1) hne
    obtain ⟨hne4, _⟩ := link4Str_ne ha4
    obtain ⟨hne6, _⟩ := link6Str_ne (hlock ▸ h6small) ha6
    refine ⟨invN, pN, midSt.1, midSt.2, st2.1, st2.2, a4, a6, hN, hpre2, ha4, ha6, hlink2,
      ?_, ?_, hne4, hostsV4_31 a4, ?_, ?_, hne6, hostsV6_127 a6⟩
    · rw [hinv2, hg.1]
      rfl
    · rw [hinv2, hg.2]
      rfl
    · rw [hinv2, hg.1]
      rfl
    · rw [hinv2, hg.2]
      rfl

/-- C4, witness on lab2: distinct loopbacks for the two nodes and the
host-pair facts for the single link. -/
theorem C4_uniqueness_witness :
    (∃ hv1 hv2, lookupA (invOf lab2).hostvars ((lab2.nodes.get ⟨0, by decide⟩).name)
        = some hv1 ∧
      lookupA (invOf lab2).hostvars ((lab2.nodes.get ⟨1, by decide⟩).name) = some hv2 ∧
      hv1.loopback_ipv4 ≠ hv2.loopback_ipv4 ∧
      hv1.loopback_ipv6 ≠ hv2.loopback_ipv6) ∧
    (∃ invN pN invPre pPre inv2 p2 a4 a6,
      addLabNodes lab2 (initInventory, initPools) = Except.ok (invN, pN) ∧
      ([] : List Link).foldlM addLink (invN, pN) = Except.ok (invPre, pPre) ∧
      ipv4LinkNet pPre.v4link = some a4 ∧ ipv6LinkNet pPre.v6link = some a6 ∧
      addLink (invPre, pPre) ⟨["leaf-1:eth1", "spine-1:eth1"]⟩ = Except.ok (inv2, p2) ∧
      (getConf inv2 "leaf-1" "eth1").map IntfConf.ipv4
        = some (ipv4Str (a4 + 1) ++ "/" ++ natRepr 31) ∧
      (getConf inv2 "spine-1" "eth1").map IntfConf.ipv4
        = some (ipv4Str a4 ++ "/" ++ natRepr 31) ∧
      ipv4Str a4 ≠ ipv4Str (a4 + 1) ∧ hostsV4 a4 31 = [a4, a4 + 1] ∧
      (getConf inv2 "leaf-1" "eth1").map IntfConf.ipv6
        = some (ipv6Str (a6 + 1) ++ "/" ++ natRepr 127) ∧
      (getConf inv2 "spine-1" "eth1").map IntfConf.ipv6
        = some (ipv6Str a6 ++ "/" ++ natRepr 127) ∧
      ipv6Str a6 ≠ ipv6Str (a6 + 1) ∧ hostsV6 a6 127 = [a6, a6 + 1]) :=
  ⟨(C4_uniqueness lab2 (invOf lab2) (by decide) (by decide)).1 0 1 (by decide) (by decide)
      (by decide),
   (C4_uniqueness lab2 (invOf lab2) (by decide) (by decide)).2 []
      ⟨["leaf-1:eth1", "spine-1:eth1"]⟩ [] rfl "leaf-1:eth1" "spine-1:eth1" "leaf-1"
      "eth1" "spine-1" "eth1" rfl (by decide) (by decide) (by decide)⟩

end ClabInventory
